import Mathlib

set_option maxRecDepth 16384

/-!
# Formal model of the GPU memory-fitting core

A shallow embedding of the two operations of the layer-placement subsystem
(`EstimateGPULayers` and `PredictServerFit` in `llm/memory.go`): given a
homogeneous group of accelerator devices and a model description, predict how
many transformer layers fit on the devices, what each device's byte
allocation is, and whether the whole model fits.

Machine integers are modelled as `Nat` (the byte quantities involved are far
below 2^64 for meaningful inputs, so `uint64` wrap-around is not modelled);
`int` values that can be negative (`NumGPU`, whose negative values are the
"auto" sentinel) are `Int`.  The model description (`*GGML`) and the runtime
options are external read-only collaborators; they are embedded as plain
records exposing exactly the accessors the source reads (block sizes by
index, head-tensor sizes, hyperparameters, the graph-size function).
Logging-only state of the source (`availableList`, `allocationsList`,
`memoryWeights` is kept, the human-readable strings are not) does not affect
the returned estimate.
-/

/-- One accelerator device, as read from the device-enumeration collaborator:
backend library tag, free bytes, and minimum reservation bytes. -/
structure GpuInfo where
  Library : String
  FreeMemory : Nat
  MinimumMemory : Nat
deriving DecidableEq, Repr

/-- Default used for (never-taken) out-of-range device lookups. -/
def defaultGpu : GpuInfo := ⟨"", 0, 0⟩

/-- The architecture hyperparameters read through `ggml.KV()`. -/
structure ModelKV where
  blockCount : Nat
  embeddingHeadCountK : Nat
  embeddingHeadCountV : Nat
  headCountKV : Nat
  gqa : Nat

/-- The model description collaborator: hyperparameters, tensor byte sizes by
name (`blk.i`, `output_norm`, `output`, `token_embd`; `none` when the tensor
is absent), and the graph-size function (context, batch) ↦ (partial, full). -/
structure GGML where
  kvData : ModelKV
  blkSize : Nat → Option Nat
  outputNormSize : Option Nat
  outputSize : Option Nat
  tokenEmbdSize : Option Nat
  graphSize : Nat → Nat → Nat × Nat

/-- Runtime options (`api.Options`): context length, batch size, and the
requested layer count (negative = auto sentinel). -/
structure ApiOptions where
  NumCtx : Nat
  NumBatch : Nat
  NumGPU : Int

/-- The estimate returned to callers (public fields of `MemoryEstimate`). -/
structure MemoryEstimate where
  Layers : Nat
  Graph : Nat
  VRAMSize : Nat
  TotalSize : Nat
  TensorSplit : String
  GPUSizes : List Nat
deriving DecidableEq, Repr

/-- Derived scalar parameters computed before placement begins
(lines 103-150 of the estimator). -/
structure EstParams where
  numCtx : Nat
  projectorSize : Nat
  kv : Nat
  kvPerLayer : Nat
  layerSize : Nat
  graphPartialOffload : Nat
  graphFullOffload : Nat
  memoryLayerOutput : Nat

/-- Head-room accounting, cache sizing, graph sizing and head sizing.
Each projector raises the effective context length to at least 2048;
`kv = 2·ctx·blockCount·(headDimK+headDimV)·headCountKV`, distributed evenly
per layer; the graph pair falls back to `gqa·kv/6` when the model reports
zero, with `metal` forcing partial = full and a multi-device group forcing
full = partial; the head is output-norm plus output (or token-embd). -/
def estParams (gpus : List GpuInfo) (g : GGML) (projectors : List Nat)
    (o : ApiOptions) : EstParams :=
  let numCtx := if projectors = [] then o.NumCtx else max o.NumCtx 2048
  let psize := projectors.sum
  let kv := 2 * numCtx * g.kvData.blockCount *
      (g.kvData.embeddingHeadCountK + g.kvData.embeddingHeadCountV) *
      g.kvData.headCountKV
  let kvPerLayer := kv / g.kvData.blockCount
  let ls := (g.blkSize 0).getD 0 + kvPerLayer
  let gpair := g.graphSize numCtx (min numCtx o.NumBatch)
  let gp0 := if gpair.1 = 0 then g.kvData.gqa * kv / 6 else gpair.1
  let gf0 := if gpair.2 = 0 then gp0 else gpair.2
  let gp1 := if (gpus.getD 0 defaultGpu).Library = "metal" then gf0 else gp0
  let gf1 := if (gpus.getD 0 defaultGpu).Library = "metal" then gf0
             else if 1 < gpus.length then gp0 else gf0
  ⟨numCtx, psize, kv, kvPerLayer, ls, gp1, gf1,
   g.outputNormSize.getD 0 +
     (match g.outputSize with
      | some s => s
      | none => g.tokenEmbdSize.getD 0)⟩

/-- The value `max(graphPartialOffload, graphFullOffload)`, the graph
head-room every eligibility and placement test reserves. -/
def graphMax (P : EstParams) : Nat := max P.graphPartialOffload P.graphFullOffload

/-- State of the eligibility filter: indices of devices with space, and the
per-device byte allocations so far. -/
structure FilterSt where
  gws : List Nat
  alloc : Nat → Nat

/-- One iteration of the eligibility filter (lines 161-173): a device is kept
only if its free memory is at least the first-device overhead (when no device
was kept yet) plus the graph head-room plus its minimum reservation plus two
layer sizes; kept devices are pre-charged minimum reservation plus one layer. -/
def filterStep (gpus : List GpuInfo) (gzo G ls : Nat) (st : FilterSt)
    (i : Nat) : FilterSt :=
  if (gpus.getD i defaultGpu).FreeMemory <
      (if st.gws = [] then gzo else 0) + G +
        (gpus.getD i defaultGpu).MinimumMemory + 2 * ls then st
  else
    { gws := st.gws ++ [i],
      alloc := fun j =>
        if j = i then st.alloc j + (gpus.getD i defaultGpu).MinimumMemory + ls
        else st.alloc j }

/-- The eligibility filter over all devices. -/
def estFilter (gpus : List GpuInfo) (g : GGML) (projectors : List Nat)
    (o : ApiOptions) : FilterSt :=
  let P := estParams gpus g projectors o
  (List.range gpus.length).foldl
    (filterStep gpus P.projectorSize (graphMax P) P.layerSize) ⟨[], fun _ => 0⟩

/-- Charging the projector overhead to the first eligible device
(lines 175-179). -/
def estAfterZero (gpus : List GpuInfo) (g : GGML) (projectors : List Nat)
    (o : ApiOptions) : FilterSt :=
  let P := estParams gpus g projectors o
  let st := estFilter gpus g projectors o
  match st.gws with
  | [] => st
  | i0 :: _ =>
    { st with alloc := fun j => if j = i0 then st.alloc j + P.projectorSize
                       else st.alloc j }

/-- State of the placement loops: remaining eligible devices, per-device
allocations and layer counts, total placed count, the current layer size, and
the logging-only weight total. -/
structure PlaceSt where
  gws : List Nat
  alloc : Nat → Nat
  counts : Nat → Nat
  layerCount : Nat
  layerSize : Nat
  memoryWeights : Nat

/-- The inner round-robin loop of block placement (lines 196-207): try device
`gws[pos % j]`; it fits when its free memory strictly exceeds its allocation
plus graph head-room plus the block size; on failure remove it and retry the
same block with the shrunken set.  Returns the surviving set and the index
placed on (`none` when every device was removed). -/
def tryPlace (gpus : List GpuInfo) (G sz pos : Nat) :
    Nat → List Nat → (Nat → Nat) → List Nat × Option Nat
  | 0, gws, _ => (gws, none)
  | j+1, gws, alloc =>
    let k := pos % (j+1)
    let idx := gws.getD k 0
    let gi := gpus.getD idx defaultGpu
    if alloc idx + G + sz < gi.FreeMemory then (gws, some idx)
    else tryPlace gpus G sz pos j (gws.eraseIdx k) alloc

/-- One transformer block of the placement loop (lines 182-208): refresh the
layer size from this block's own tensors when present, skip placement once an
explicit requested layer count is reached, otherwise run the round-robin
attempt. -/
def blockStepCore (gpus : List GpuInfo) (G : Nat) (numGPU : Int) (ls : Nat)
    (st : PlaceSt) (i : Nat) : PlaceSt :=
  if 0 ≤ numGPU ∧ numGPU ≤ (st.layerCount : Int) then
    { st with layerSize := ls, memoryWeights := st.memoryWeights + ls }
  else
    match tryPlace gpus G ls i st.gws.length st.gws st.alloc with
    | (gws2, some idx) =>
      { gws := gws2,
        alloc := fun j => if j = idx then st.alloc j + ls else st.alloc j,
        counts := fun j => if j = idx then st.counts j + 1 else st.counts j,
        layerCount := st.layerCount + 1,
        layerSize := ls,
        memoryWeights := st.memoryWeights + ls }
    | (gws2, none) =>
      { st with gws := gws2, layerSize := ls,
                memoryWeights := st.memoryWeights + ls }

/-- The layer size used for block `i`: the block's own tensor size when
present (plus the per-layer cache share), else the previous layer size. -/
def blockLayerSize (g : GGML) (kvs : Nat) (st : PlaceSt) (i : Nat) : Nat :=
  match g.blkSize i with
  | some s => s + kvs
  | none => st.layerSize

def blockStep (gpus : List GpuInfo) (g : GGML) (kvs G : Nat) (numGPU : Int)
    (st : PlaceSt) (i : Nat) : PlaceSt :=
  blockStepCore gpus G numGPU (blockLayerSize g kvs st i) st i

/-- Placement state on entry to the block loop. -/
def estInit (gpus : List GpuInfo) (g : GGML) (projectors : List Nat)
    (o : ApiOptions) : PlaceSt :=
  let P := estParams gpus g projectors o
  let f := estAfterZero gpus g projectors o
  ⟨f.gws, f.alloc, fun _ => 0, 0, P.layerSize, 0⟩

/-- Placement state after the block loop. -/
def estBlocks (gpus : List GpuInfo) (g : GGML) (projectors : List Nat)
    (o : ApiOptions) : PlaceSt :=
  let P := estParams gpus g projectors o
  (List.range g.kvData.blockCount).foldl
    (blockStep gpus g P.kvPerLayer (graphMax P) o.NumGPU)
    (estInit gpus g projectors o)

/-- Full-load flag after the block loop (line 209): every block placed. -/
def estFullyLoaded1 (gpus : List GpuInfo) (g : GGML) (projectors : List Nat)
    (o : ApiOptions) : Bool :=
  decide (g.kvData.blockCount ≤ (estBlocks gpus g projectors o).layerCount)

/-- Overflow accumulated for unplaced blocks (lines 211-215): the loop adds
the current `layerSize` once per unplaced block. -/
def estOverflow1 (gpus : List GpuInfo) (g : GGML) (projectors : List Nat)
    (o : ApiOptions) : Nat :=
  if g.kvData.blockCount ≤ (estBlocks gpus g projectors o).layerCount then 0
  else (g.kvData.blockCount - (estBlocks gpus g projectors o).layerCount) *
    (estBlocks gpus g projectors o).layerSize

/-- The head-placement loop (lines 219-228): try `gws[layerCount % j]` for
`j = |gws| .. 1`; unlike block placement, failures do not remove devices. -/
def tryHead (gpus : List GpuInfo) (G sz lc : Nat) (gws : List Nat)
    (alloc : Nat → Nat) : Nat → Option Nat
  | 0 => none
  | j+1 =>
    let idx := gws.getD (lc % (j+1)) 0
    if alloc idx + G + sz < (gpus.getD idx defaultGpu).FreeMemory then some idx
    else tryHead gpus G sz lc gws alloc j

/-- The head placement attempt is made only when the head size is nonzero and
the explicit layer cap (when any) is not yet reached (line 218); `some idx`
is the device the head was placed on. -/
def estHeadResult (gpus : List GpuInfo) (g : GGML) (projectors : List Nat)
    (o : ApiOptions) : Option Nat :=
  if 0 < (estParams gpus g projectors o).memoryLayerOutput ∧
      (o.NumGPU < 0 ∨
        ((estBlocks gpus g projectors o).layerCount : Int) < o.NumGPU) then
    tryHead gpus (graphMax (estParams gpus g projectors o))
      (estParams gpus g projectors o).memoryLayerOutput
      (estBlocks gpus g projectors o).layerCount
      (estBlocks gpus g projectors o).gws
      (estBlocks gpus g projectors o).alloc
      (estBlocks gpus g projectors o).gws.length
  else none

/-- Placement state after the head attempt (lines 222-227). -/
def estAfterHead (gpus : List GpuInfo) (g : GGML) (projectors : List Nat)
    (o : ApiOptions) : PlaceSt :=
  match estHeadResult gpus g projectors o with
  | some idx =>
    { estBlocks gpus g projectors o with
      alloc := fun j =>
        if j = idx then (estBlocks gpus g projectors o).alloc j +
          (estParams gpus g projectors o).memoryLayerOutput
        else (estBlocks gpus g projectors o).alloc j,
      counts := fun j =>
        if j = idx then (estBlocks gpus g projectors o).counts j + 1
        else (estBlocks gpus g projectors o).counts j,
      layerCount := (estBlocks gpus g projectors o).layerCount + 1 }
  | none => estBlocks gpus g projectors o

/-- Whether the head branch ran at all (the condition of line 218). -/
def estHeadAttempted (gpus : List GpuInfo) (g : GGML) (projectors : List Nat)
    (o : ApiOptions) : Prop :=
  0 < (estParams gpus g projectors o).memoryLayerOutput ∧
    (o.NumGPU < 0 ∨
      ((estBlocks gpus g projectors o).layerCount : Int) < o.NumGPU)

instance (gpus : List GpuInfo) (g : GGML) (projectors : List Nat)
    (o : ApiOptions) : Decidable (estHeadAttempted gpus g projectors o) := by
  unfold estHeadAttempted; infer_instance

/-- Full-load flag after the head branch (lines 230-233): cleared when the
head branch ran and not all blocks plus the head ended up placed. -/
def estFullyLoadedFinal (gpus : List GpuInfo) (g : GGML) (projectors : List Nat)
    (o : ApiOptions) : Bool :=
  if estHeadAttempted gpus g projectors o ∧
      (estAfterHead gpus g projectors o).layerCount < g.kvData.blockCount + 1
  then false
  else estFullyLoaded1 gpus g projectors o

/-- Overflow after the head branch (line 232): the head size is added when
the head branch ran and not all blocks plus the head ended up placed. -/
def estOverflowFinal (gpus : List GpuInfo) (g : GGML) (projectors : List Nat)
    (o : ApiOptions) : Nat :=
  estOverflow1 gpus g projectors o +
    if estHeadAttempted gpus g projectors o ∧
        (estAfterHead gpus g projectors o).layerCount < g.kvData.blockCount + 1
    then (estParams gpus g projectors o).memoryLayerOutput
    else 0

/-- Final per-device allocation (lines 237-246): devices holding at least one
layer are charged the graph once — the full-offload graph when fully loaded,
else the partial-offload graph. -/
def estAllocFinal (gpus : List GpuInfo) (g : GGML) (projectors : List Nat)
    (o : ApiOptions) (i : Nat) : Nat :=
  (estAfterHead gpus g projectors o).alloc i +
    if 0 < (estAfterHead gpus g projectors o).counts i then
      (if estFullyLoadedFinal gpus g projectors o then
        (estParams gpus g projectors o).graphFullOffload
       else (estParams gpus g projectors o).graphPartialOffload)
    else 0

/-- The per-device byte allocation vector (`gpuAllocations`). -/
def estGPUSizes (gpus : List GpuInfo) (g : GGML) (projectors : List Nat)
    (o : ApiOptions) : List Nat :=
  (List.range gpus.length).map (estAllocFinal gpus g projectors o)

/-- The quantity `memoryRequiredPartial` (lines 254-257): the sum of all
device allocations. -/
def estVRAM (gpus : List GpuInfo) (g : GGML) (projectors : List Nat)
    (o : ApiOptions) : Nat :=
  (estGPUSizes gpus g projectors o).sum

/-- The quantity `memoryRequiredTotal` (line 258): allocations plus
overflow. -/
def estTotal (gpus : List GpuInfo) (g : GGML) (projectors : List Nat)
    (o : ApiOptions) : Nat :=
  estVRAM gpus g projectors o + estOverflowFinal gpus g projectors o

/-- The tensor-split descriptor (lines 260-267): comma-joined per-device
layer counts, produced only for multi-device groups. -/
def estTensorSplit (gpus : List GpuInfo) (g : GGML) (projectors : List Nat)
    (o : ApiOptions) : String :=
  if 1 < gpus.length then
    String.intercalate ","
      ((List.range gpus.length).map
        (fun i => toString ((estAfterHead gpus g projectors o).counts i)))
  else ""

/-- The placed-layer total after the head attempt. -/
def estLayerCountFinal (gpus : List GpuInfo) (g : GGML) (projectors : List Nat)
    (o : ApiOptions) : Nat :=
  (estAfterHead gpus g projectors o).layerCount

/-- The estimator `EstimateGPULayers` (lines 69-306): the degenerate cpu-library and
zero-layer paths return a zero-offload estimate carrying only `TotalSize`;
otherwise the full estimate is returned. -/
def EstimateGPULayers (gpus : List GpuInfo) (g : GGML) (projectors : List Nat)
    (o : ApiOptions) : MemoryEstimate :=
  if (gpus.getD 0 defaultGpu).Library = "cpu" ∨
      (estAfterHead gpus g projectors o).layerCount = 0 then
    ⟨0, 0, 0, estTotal gpus g projectors o, "", []⟩
  else
    ⟨(estAfterHead gpus g projectors o).layerCount,
     (if estFullyLoadedFinal gpus g projectors o then
        (estParams gpus g projectors o).graphFullOffload
      else (estParams gpus g projectors o).graphPartialOffload),
     estVRAM gpus g projectors o,
     estTotal gpus g projectors o,
     estTensorSplit gpus g projectors o,
     estGPUSizes gpus g projectors o⟩

/-- The estimator's domain guard: the source dereferences `gpus[0]` before
doing anything else (line 101), so the function is undefined (panics) on an
empty device group. -/
def EstimateGPULayersChecked (gpus : List GpuInfo) (g : GGML)
    (projectors : List Nat) (o : ApiOptions) : Option MemoryEstimate :=
  if gpus.isEmpty then none
  else some (EstimateGPULayers gpus g projectors o)

/-- The fit condition of `PredictServerFit` (lines 22-30): a positive placed
count and, for the auto sentinel, all blocks plus head placed, otherwise at
least the requested count placed. -/
def groupFits (g : GGML) (projectors : List Nat) (o : ApiOptions)
    (gpus : List GpuInfo) : Prop :=
  let e := EstimateGPULayers gpus g projectors o
  0 < e.Layers ∧
    (if o.NumGPU < 0 then g.kvData.blockCount + 1 ≤ e.Layers
     else o.NumGPU ≤ (e.Layers : Int))

instance (g : GGML) (projectors : List Nat) (o : ApiOptions)
    (gpus : List GpuInfo) : Decidable (groupFits g projectors o gpus) := by
  unfold groupFits; infer_instance

/-- The predictor's grouping loop, threading the most recent VRAM estimate. -/
def predictGo (g : GGML) (projectors : List Nat) (o : ApiOptions) :
    List (List GpuInfo) → Nat → Bool × Nat
  | [], acc => (false, acc)
  | gpus :: rest, _ =>
    let e := EstimateGPULayers gpus g projectors o
    if groupFits g projectors o gpus then (true, e.VRAMSize)
    else predictGo g projectors o rest e.VRAMSize

/-- The predictor `PredictServerFit` (lines 15-33): iterate the device-library groupings in
order, returning `(true, VRAMSize)` at the first fitting grouping, else
`(false, VRAMSize of the last grouping evaluated)`. -/
def PredictServerFit (groups : List (List GpuInfo)) (g : GGML)
    (projectors : List Nat) (o : ApiOptions) : Bool × Nat :=
  predictGo g projectors o groups 0

/-! ## Properties of the inner placement loop -/

section PlacementLemmas

variable (gpus : List GpuInfo) (g : GGML) (kvs G sz pos : Nat) (nG : Int)

theorem tryPlace_fst_subset (j : Nat) :
    ∀ (gws : List Nat) (alloc : Nat → Nat),
      (tryPlace gpus G sz pos j gws alloc).1 ⊆ gws := by
  induction j with
  | zero => intro gws alloc; simp [tryPlace]
  | succ j ih =>
    intro gws alloc
    unfold tryPlace
    dsimp only
    split
    · exact fun x hx => hx
    · exact fun x hx => List.mem_of_mem_eraseIdx (ih _ _ hx)

theorem tryPlace_none_nil (j : Nat) :
    ∀ (gws : List Nat) (alloc : Nat → Nat), gws.length = j →
      (tryPlace gpus G sz pos j gws alloc).2 = none →
      (tryPlace gpus G sz pos j gws alloc).1 = [] := by
  induction j with
  | zero =>
    intro gws alloc hlen _
    rw [List.length_eq_zero] at hlen
    simp [tryPlace, hlen]
  | succ j ih =>
    intro gws alloc hlen hnone
    rw [tryPlace] at hnone ⊢
    split at hnone
    · simp at hnone
    · rename_i hfit
      have hk : pos % (j+1) < gws.length := by
        rw [hlen]; exact Nat.mod_lt _ (Nat.succ_pos j)
      have hlen2 : (gws.eraseIdx (pos % (j+1))).length = j := by
        rw [List.length_eraseIdx_of_lt hk]
        omega
      simp only [if_neg hfit]
      exact ih _ _ hlen2 hnone

theorem tryPlace_some_spec (j : Nat) :
    ∀ (gws : List Nat) (alloc : Nat → Nat) (idx : Nat), j ≤ gws.length →
      (tryPlace gpus G sz pos j gws alloc).2 = some idx →
      idx ∈ gws ∧ alloc idx + G + sz < (gpus.getD idx defaultGpu).FreeMemory := by
  induction j with
  | zero => intro gws alloc idx _ h; simp [tryPlace] at h
  | succ j ih =>
    intro gws alloc idx hj h
    rw [tryPlace] at h
    split at h
    · rename_i hfit
      have hk : pos % (j+1) < gws.length :=
        lt_of_lt_of_le (Nat.mod_lt _ (Nat.succ_pos j)) hj
      simp only [Option.some.injEq] at h
      subst h
      rw [List.getD_eq_getElem _ _ hk] at hfit ⊢
      exact ⟨List.getElem_mem hk, hfit⟩
    · have hk : pos % (j+1) < gws.length :=
        lt_of_lt_of_le (Nat.mod_lt _ (Nat.succ_pos j)) hj
      have hj2 : j ≤ (gws.eraseIdx (pos % (j+1))).length := by
        rw [List.length_eraseIdx_of_lt hk]
        omega
      obtain ⟨hmem, hfit⟩ := ih _ _ _ hj2 h
      exact ⟨List.mem_of_mem_eraseIdx hmem, hfit⟩

theorem tryHead_some_spec (lc : Nat) (gws : List Nat) (alloc : Nat → Nat)
    (j : Nat) :
    ∀ idx, j ≤ gws.length → tryHead gpus G sz lc gws alloc j = some idx →
      idx ∈ gws ∧ alloc idx + G + sz < (gpus.getD idx defaultGpu).FreeMemory := by
  induction j with
  | zero => intro idx _ h; simp [tryHead] at h
  | succ j ih =>
    intro idx hj h
    rw [tryHead] at h
    split at h
    · rename_i hfit
      have hk : lc % (j+1) < gws.length :=
        lt_of_lt_of_le (Nat.mod_lt _ (Nat.succ_pos j)) hj
      simp only [Option.some.injEq] at h
      subst h
      rw [List.getD_eq_getElem _ _ hk] at hfit ⊢
      exact ⟨List.getElem_mem hk, hfit⟩
    · exact ih _ (le_trans (Nat.le_succ j) hj) h

theorem blockStepCore_layerCount_le (ls : Nat) (st : PlaceSt) (i : Nat) :
    st.layerCount ≤ (blockStepCore gpus G nG ls st i).layerCount := by
  unfold blockStepCore
  split
  · exact Nat.le_refl _
  · rcases htp : tryPlace gpus G ls i st.gws.length st.gws st.alloc with ⟨gws2, r⟩
    cases r <;> simp

theorem blockStepCore_layerCount_le_succ (ls : Nat) (st : PlaceSt) (i : Nat) :
    (blockStepCore gpus G nG ls st i).layerCount ≤ st.layerCount + 1 := by
  unfold blockStepCore
  split
  · exact Nat.le_succ _
  · rcases htp : tryPlace gpus G ls i st.gws.length st.gws st.alloc with ⟨gws2, r⟩
    cases r <;> simp

theorem blockStepCore_gws_subset (ls : Nat) (st : PlaceSt) (i : Nat) :
    (blockStepCore gpus G nG ls st i).gws ⊆ st.gws := by
  unfold blockStepCore
  split
  · exact fun x hx => hx
  · have hsub := tryPlace_fst_subset gpus G ls i st.gws.length st.gws st.alloc
    rcases htp : tryPlace gpus G ls i st.gws.length st.gws st.alloc with ⟨gws2, r⟩
    rw [htp] at hsub
    cases r <;> simpa using hsub

theorem blockStepCore_nil (ls : Nat) (st : PlaceSt) (i : Nat) (h : st.gws = []) :
    (blockStepCore gpus G nG ls st i).gws = [] ∧
    (blockStepCore gpus G nG ls st i).layerCount = st.layerCount ∧
    (blockStepCore gpus G nG ls st i).alloc = st.alloc ∧
    (blockStepCore gpus G nG ls st i).counts = st.counts := by
  unfold blockStepCore
  split
  · exact ⟨h, rfl, rfl, rfl⟩
  · rw [h]
    simp [tryPlace]

theorem blockStepCore_untouched (ls : Nat) (st : PlaceSt) (i x : Nat)
    (hx : x ∉ st.gws) :
    (blockStepCore gpus G nG ls st i).alloc x = st.alloc x ∧
    (blockStepCore gpus G nG ls st i).counts x = st.counts x := by
  unfold blockStepCore
  split
  · exact ⟨rfl, rfl⟩
  · rcases htp : tryPlace gpus G ls i st.gws.length st.gws st.alloc with ⟨gws2, r⟩
    cases r with
    | none => exact ⟨rfl, rfl⟩
    | some idx =>
      have hmem : idx ∈ st.gws :=
        (tryPlace_some_spec gpus G ls i st.gws.length st.gws st.alloc idx
          (Nat.le_refl _) (by rw [htp])).1
      have hne : x ≠ idx := fun he => hx (he ▸ hmem)
      simp [hne]

theorem blockStepCore_cases (ls : Nat) (st : PlaceSt) (i : Nat)
    (h : (blockStepCore gpus G nG ls st i).gws ≠ []) :
    (blockStepCore gpus G nG ls st i).layerCount = st.layerCount + 1 ∨
    (0 ≤ nG ∧ nG ≤ (st.layerCount : Int) ∧
      (blockStepCore gpus G nG ls st i).layerCount = st.layerCount) := by
  unfold blockStepCore at h ⊢
  split at h
  · rename_i hc
    rw [if_pos hc]
    exact Or.inr ⟨hc.1, hc.2, rfl⟩
  · rename_i hc
    rw [if_neg hc]
    have hnil := tryPlace_none_nil gpus G ls i st.gws.length st.gws st.alloc rfl
    rcases htp : tryPlace gpus G ls i st.gws.length st.gws st.alloc with ⟨gws2, r⟩
    rw [htp] at h hnil
    cases r with
    | none => simp at hnil; simp [hnil] at h
    | some idx => simp

/-- The memory-safety invariant of placement: a device either received
nothing beyond its (free-memory-covered) pre-charges, or its allocation
leaves room for the final graph charge. -/
def EstInv (gpus : List GpuInfo) (G : Nat) (alloc counts : Nat → Nat) : Prop :=
  ∀ x, (counts x = 0 ∧ alloc x ≤ (gpus.getD x defaultGpu).FreeMemory) ∨
       (alloc x + G ≤ (gpus.getD x defaultGpu).FreeMemory)

theorem blockStepCore_inv (ls : Nat) (st : PlaceSt) (i : Nat)
    (h : EstInv gpus G st.alloc st.counts) :
    EstInv gpus G (blockStepCore gpus G nG ls st i).alloc
      (blockStepCore gpus G nG ls st i).counts := by
  unfold blockStepCore
  split
  · exact h
  · rcases htp : tryPlace gpus G ls i st.gws.length st.gws st.alloc with ⟨gws2, r⟩
    cases r with
    | none => exact h
    | some idx =>
      obtain ⟨-, hfit⟩ := tryPlace_some_spec gpus G ls i st.gws.length st.gws
        st.alloc idx (Nat.le_refl _) (by rw [htp])
      intro x
      by_cases hxe : x = idx
      · subst hxe
        right
        show (if x = x then st.alloc x + ls else st.alloc x) + G ≤ _
        rw [if_pos rfl]
        omega
      · simpa [hxe] using h x

theorem blockStep_layerCount_le (st : PlaceSt) (i : Nat) :
    st.layerCount ≤ (blockStep gpus g kvs G nG st i).layerCount :=
  blockStepCore_layerCount_le gpus G nG _ st i

theorem blockStep_layerCount_le_succ (st : PlaceSt) (i : Nat) :
    (blockStep gpus g kvs G nG st i).layerCount ≤ st.layerCount + 1 :=
  blockStepCore_layerCount_le_succ gpus G nG _ st i

theorem blockStep_gws_subset (st : PlaceSt) (i : Nat) :
    (blockStep gpus g kvs G nG st i).gws ⊆ st.gws :=
  blockStepCore_gws_subset gpus G nG _ st i

theorem blockStep_nil (st : PlaceSt) (i : Nat) (h : st.gws = []) :
    (blockStep gpus g kvs G nG st i).gws = [] ∧
    (blockStep gpus g kvs G nG st i).layerCount = st.layerCount ∧
    (blockStep gpus g kvs G nG st i).alloc = st.alloc ∧
    (blockStep gpus g kvs G nG st i).counts = st.counts :=
  blockStepCore_nil gpus G nG _ st i h

theorem blockStep_untouched (st : PlaceSt) (i x : Nat) (hx : x ∉ st.gws) :
    (blockStep gpus g kvs G nG st i).alloc x = st.alloc x ∧
    (blockStep gpus g kvs G nG st i).counts x = st.counts x :=
  blockStepCore_untouched gpus G nG _ st i x hx

theorem blockStep_cases (st : PlaceSt) (i : Nat)
    (h : (blockStep gpus g kvs G nG st i).gws ≠ []) :
    (blockStep gpus g kvs G nG st i).layerCount = st.layerCount + 1 ∨
    (0 ≤ nG ∧ nG ≤ (st.layerCount : Int) ∧
      (blockStep gpus g kvs G nG st i).layerCount = st.layerCount) :=
  blockStepCore_cases gpus G nG _ st i h

theorem blockStep_inv (st : PlaceSt) (i : Nat)
    (h : EstInv gpus G st.alloc st.counts) :
    EstInv gpus G (blockStep gpus g kvs G nG st i).alloc
      (blockStep gpus g kvs G nG st i).counts :=
  blockStepCore_inv gpus G nG _ st i h

end PlacementLemmas

/-! ## Properties of the block-loop fold -/

section FoldLemmas

variable (gpus : List GpuInfo) (g : GGML) (kvs G : Nat) (nG : Int)

theorem foldBlocks_lc_mono (l : List Nat) :
    ∀ st : PlaceSt,
      st.layerCount ≤ (l.foldl (blockStep gpus g kvs G nG) st).layerCount := by
  induction l with
  | nil => intro st; exact Nat.le_refl _
  | cons a t ih =>
    intro st
    simp only [List.foldl_cons]
    exact le_trans (blockStep_layerCount_le gpus g kvs G nG st a) (ih _)

theorem foldBlocks_lc_le (l : List Nat) :
    ∀ st : PlaceSt,
      (l.foldl (blockStep gpus g kvs G nG) st).layerCount ≤
        st.layerCount + l.length := by
  induction l with
  | nil => intro st; simp
  | cons a t ih =>
    intro st
    simp only [List.foldl_cons, List.length_cons]
    have h1 := ih (blockStep gpus g kvs G nG st a)
    have h2 := blockStep_layerCount_le_succ gpus g kvs G nG st a
    omega

theorem foldBlocks_nil (l : List Nat) :
    ∀ st : PlaceSt, st.gws = [] →
      (l.foldl (blockStep gpus g kvs G nG) st).gws = [] ∧
      (l.foldl (blockStep gpus g kvs G nG) st).layerCount = st.layerCount ∧
      (l.foldl (blockStep gpus g kvs G nG) st).alloc = st.alloc ∧
      (l.foldl (blockStep gpus g kvs G nG) st).counts = st.counts := by
  induction l with
  | nil => intro st h; exact ⟨h, rfl, rfl, rfl⟩
  | cons a t ih =>
    intro st h
    simp only [List.foldl_cons]
    obtain ⟨h1, h2, h3, h4⟩ := blockStep_nil gpus g kvs G nG st a h
    obtain ⟨h1', h2', h3', h4'⟩ := ih (blockStep gpus g kvs G nG st a) h1
    exact ⟨h1', h2'.trans h2, h3'.trans h3, h4'.trans h4⟩

theorem foldBlocks_gws_subset (l : List Nat) :
    ∀ st : PlaceSt, (l.foldl (blockStep gpus g kvs G nG) st).gws ⊆ st.gws := by
  induction l with
  | nil => intro st; exact fun x hx => hx
  | cons a t ih =>
    intro st
    simp only [List.foldl_cons]
    exact fun x hx => blockStep_gws_subset gpus g kvs G nG st a (ih _ hx)

theorem foldBlocks_untouched (l : List Nat) (x : Nat) :
    ∀ st : PlaceSt, x ∉ st.gws →
      (l.foldl (blockStep gpus g kvs G nG) st).alloc x = st.alloc x ∧
      (l.foldl (blockStep gpus g kvs G nG) st).counts x = st.counts x := by
  induction l with
  | nil => intro st _; exact ⟨rfl, rfl⟩
  | cons a t ih =>
    intro st hx
    simp only [List.foldl_cons]
    have hx2 : x ∉ (blockStep gpus g kvs G nG st a).gws :=
      fun hmem => hx (blockStep_gws_subset gpus g kvs G nG st a hmem)
    obtain ⟨h1, h2⟩ := blockStep_untouched gpus g kvs G nG st a x hx
    obtain ⟨h1', h2'⟩ := ih _ hx2
    exact ⟨h1'.trans h1, h2'.trans h2⟩

theorem foldBlocks_inv (l : List Nat) :
    ∀ st : PlaceSt, EstInv gpus G st.alloc st.counts →
      EstInv gpus G (l.foldl (blockStep gpus g kvs G nG) st).alloc
        (l.foldl (blockStep gpus g kvs G nG) st).counts := by
  induction l with
  | nil => intro st h; exact h
  | cons a t ih =>
    intro st h
    simp only [List.foldl_cons]
    exact ih _ (blockStep_inv gpus g kvs G nG st a h)

theorem foldBlocks_full (l : List Nat) :
    ∀ st : PlaceSt, (l.foldl (blockStep gpus g kvs G nG) st).gws ≠ [] →
      (nG < 0 ∨ ((l.foldl (blockStep gpus g kvs G nG) st).layerCount : Int) < nG) →
      (l.foldl (blockStep gpus g kvs G nG) st).layerCount =
        st.layerCount + l.length := by
  induction l with
  | nil => intro st _ _; simp
  | cons a t ih =>
    intro st h1 h2
    simp only [List.foldl_cons, List.length_cons] at h1 h2 ⊢
    have hstep_ne : (blockStep gpus g kvs G nG st a).gws ≠ [] := by
      intro he
      exact h1 (foldBlocks_nil gpus g kvs G nG t _ he).1
    rcases blockStep_cases gpus g kvs G nG st a hstep_ne with hl | ⟨hn0, hnle, hlc⟩
    · have := ih _ h1 h2
      omega
    · exfalso
      have hmono := foldBlocks_lc_mono gpus g kvs G nG t
        (blockStep gpus g kvs G nG st a)
      rw [hlc] at hmono
      omega

end FoldLemmas

/-! ## Properties of the eligibility filter -/

section FilterLemmas

variable (gpus : List GpuInfo) (gzo G ls : Nat)

theorem filterStep_gws_shape (st : FilterSt) (i : Nat) :
    (filterStep gpus gzo G ls st i).gws = st.gws ∨
    (filterStep gpus gzo G ls st i).gws = st.gws ++ [i] := by
  by_cases hc : (gpus.getD i defaultGpu).FreeMemory <
      (if st.gws = [] then gzo else 0) + G +
        (gpus.getD i defaultGpu).MinimumMemory + 2 * ls
  · rw [filterStep, if_pos hc]; exact Or.inl rfl
  · rw [filterStep, if_neg hc]; exact Or.inr rfl

theorem filterStep_untouched (st : FilterSt) (i x : Nat) (hxi : x ≠ i) :
    (filterStep gpus gzo G ls st i).alloc x = st.alloc x := by
  by_cases hc : (gpus.getD i defaultGpu).FreeMemory <
      (if st.gws = [] then gzo else 0) + G +
        (gpus.getD i defaultGpu).MinimumMemory + 2 * ls
  · rw [filterStep, if_pos hc]
  · rw [filterStep, if_neg hc]; simp [hxi]

theorem filterFold_untouched (l : List Nat) (x : Nat) :
    ∀ st : FilterSt, x ∉ l →
      (l.foldl (filterStep gpus gzo G ls) st).alloc x = st.alloc x := by
  induction l with
  | nil => intro st _; rfl
  | cons a t ih =>
    intro st hx
    simp only [List.foldl_cons]
    have hxa : x ≠ a := fun he => hx (he ▸ List.mem_cons_self a t)
    have hxt : x ∉ t := fun hmem => hx (List.mem_cons_of_mem a hmem)
    rw [ih _ hxt, filterStep_untouched gpus gzo G ls st a x hxa]

theorem filterFold_gws_mem (l : List Nat) (x : Nat) :
    ∀ st : FilterSt, x ∈ (l.foldl (filterStep gpus gzo G ls) st).gws →
      x ∈ st.gws ∨ x ∈ l := by
  induction l with
  | nil => intro st hx; exact Or.inl hx
  | cons a t ih =>
    intro st hx
    simp only [List.foldl_cons] at hx
    rcases ih _ hx with hx1 | hx1
    · rcases filterStep_gws_shape gpus gzo G ls st a with hsh | hsh
      · rw [hsh] at hx1; exact Or.inl hx1
      · rw [hsh] at hx1
        rcases List.mem_append.mp hx1 with hx2 | hx2
        · exact Or.inl hx2
        · simp at hx2; subst hx2; exact Or.inr (List.mem_cons_self _ _)
    · exact Or.inr (List.mem_cons_of_mem a hx1)

/-- Invariant of the eligibility filter: every kept device carries exactly
its pre-charge and passed the space test; the first kept device passed the
test including the first-device overhead; untouched devices carry nothing. -/
def FilterInv (st : FilterSt) : Prop :=
  (∀ x ∈ st.gws,
      st.alloc x = (gpus.getD x defaultGpu).MinimumMemory + ls ∧
      G + (gpus.getD x defaultGpu).MinimumMemory + 2 * ls ≤
        (gpus.getD x defaultGpu).FreeMemory) ∧
  (∀ h, st.gws.head? = some h →
      gzo + G + (gpus.getD h defaultGpu).MinimumMemory + 2 * ls ≤
        (gpus.getD h defaultGpu).FreeMemory) ∧
  (∀ x, x ∉ st.gws → st.alloc x = 0)

theorem filterStep_inv (st : FilterSt) (i : Nat) (hi : i ∉ st.gws)
    (h : FilterInv gpus gzo G ls st) :
    FilterInv gpus gzo G ls (filterStep gpus gzo G ls st i) := by
  obtain ⟨hA, hB, hC⟩ := h
  by_cases hcond : (gpus.getD i defaultGpu).FreeMemory <
      (if st.gws = [] then gzo else 0) + G +
        (gpus.getD i defaultGpu).MinimumMemory + 2 * ls
  · rw [filterStep, if_pos hcond]
    exact ⟨hA, hB, hC⟩
  · rw [filterStep, if_neg hcond]
    have hge := Nat.le_of_not_lt hcond
    refine ⟨?_, ?_, ?_⟩
    · intro x hx
      rcases List.mem_append.mp hx with hx1 | hx1
      · have hxi : x ≠ i := fun he => hi (he ▸ hx1)
        simpa [hxi] using hA x hx1
      · simp at hx1
        subst hx1
        have halloc0 : st.alloc x = 0 := hC x hi
        constructor
        · simp [halloc0]
        · by_cases hnil : st.gws = [] <;> simp [hnil] at hge <;> omega
    · intro hd hhd
      rcases hgw : st.gws with _ | ⟨a, t⟩
      · rw [hgw] at hhd
        simp at hhd
        subst hhd
        rw [hgw] at hge
        simpa using hge
      · rw [hgw] at hhd
        simp at hhd
        subst hhd
        apply hB
        rw [hgw]
        rfl
    · intro x hx
      have hx1 : x ∉ st.gws := fun hmem => hx (List.mem_append_left _ hmem)
      have hxi : x ≠ i := by
        intro he
        exact hx (he ▸ List.mem_append_right _ (List.mem_singleton.mpr rfl))
      simpa [hxi] using hC x hx1

theorem filterFold_inv (k : Nat) :
    ∀ (s : Nat) (st : FilterSt), FilterInv gpus gzo G ls st →
      (∀ x ∈ st.gws, x < s) →
      FilterInv gpus gzo G ls
        ((List.range' s k).foldl (filterStep gpus gzo G ls) st) ∧
      (∀ x ∈ ((List.range' s k).foldl (filterStep gpus gzo G ls) st).gws,
        x < s + k) := by
  induction k with
  | zero =>
    intro s st h hb
    exact ⟨h, fun x hx => by have := hb x hx; omega⟩
  | succ k ih =>
    intro s st h hb
    have hstep : List.range' s (k+1) = s :: List.range' (s+1) k := rfl
    rw [hstep]
    simp only [List.foldl_cons]
    have hi : s ∉ st.gws := fun hmem => lt_irrefl s (hb s hmem)
    have h1 := filterStep_inv gpus gzo G ls st s hi h
    have hb1 : ∀ x ∈ (filterStep gpus gzo G ls st s).gws, x < s + 1 := by
      intro x hx
      rcases filterStep_gws_shape gpus gzo G ls st s with hsh | hsh
      · rw [hsh] at hx; exact Nat.lt_succ_of_lt (hb x hx)
      · rw [hsh] at hx
        rcases List.mem_append.mp hx with hx1 | hx1
        · exact Nat.lt_succ_of_lt (hb x hx1)
        · simp at hx1; omega
    obtain ⟨hI, hBnd⟩ := ih (s+1) _ h1 hb1
    refine ⟨hI, fun x hx => ?_⟩
    have := hBnd x hx
    omega

end FilterLemmas

theorem estFilter_inv (gpus : List GpuInfo) (g : GGML) (projectors : List Nat)
    (o : ApiOptions) :
    FilterInv gpus (estParams gpus g projectors o).projectorSize
      (graphMax (estParams gpus g projectors o))
      (estParams gpus g projectors o).layerSize
      (estFilter gpus g projectors o) := by
  unfold estFilter
  rw [List.range_eq_range']
  refine (filterFold_inv gpus _ _ _ gpus.length 0 ⟨[], fun _ => 0⟩ ?_ ?_).1
  · refine ⟨?_, ?_, ?_⟩
    · intro x hx; simp at hx
    · intro h hh; simp at hh
    · intro x _; rfl
  · intro x hx; simp at hx

/-! ## Invariants carried to the returned estimate -/

theorem estAfterZero_inv (gpus : List GpuInfo) (g : GGML) (projectors : List Nat)
    (o : ApiOptions) (x : Nat) :
    (estAfterZero gpus g projectors o).alloc x = 0 ∨
    (estAfterZero gpus g projectors o).alloc x +
        graphMax (estParams gpus g projectors o) ≤
      (gpus.getD x defaultGpu).FreeMemory := by
  obtain ⟨hA, hB, hC⟩ := estFilter_inv gpus g projectors o
  simp only [estAfterZero]
  rcases hgw : (estFilter gpus g projectors o).gws with _ | ⟨i0, rest⟩
  · left
    exact hC x (by rw [hgw]; simp)
  · dsimp only
    by_cases hmem : x ∈ (estFilter gpus g projectors o).gws
    · right
      by_cases hx0 : x = i0
      · subst hx0
        obtain ⟨ha, hb⟩ := hA x hmem
        have hh := hB x (by rw [hgw]; rfl)
        rw [if_pos rfl, ha]
        omega
      · obtain ⟨ha, hb⟩ := hA x hmem
        rw [if_neg hx0, ha]
        omega
    · left
      have hxi0 : x ≠ i0 := by
        intro he
        exact hmem (he ▸ (hgw ▸ List.mem_cons_self i0 rest))
      rw [if_neg hxi0]
      exact hC x hmem

theorem estInit_inv (gpus : List GpuInfo) (g : GGML) (projectors : List Nat)
    (o : ApiOptions) :
    EstInv gpus (graphMax (estParams gpus g projectors o))
      (estInit gpus g projectors o).alloc (estInit gpus g projectors o).counts := by
  intro x
  rcases estAfterZero_inv gpus g projectors o x with h | h
  · refine Or.inl ⟨rfl, ?_⟩
    show (estAfterZero gpus g projectors o).alloc x ≤ _
    rw [h]
    exact Nat.zero_le _
  · exact Or.inr h

theorem estBlocks_inv (gpus : List GpuInfo) (g : GGML) (projectors : List Nat)
    (o : ApiOptions) :
    EstInv gpus (graphMax (estParams gpus g projectors o))
      (estBlocks gpus g projectors o).alloc
      (estBlocks gpus g projectors o).counts := by
  unfold estBlocks
  exact foldBlocks_inv gpus g _ _ _ _ _ (estInit_inv gpus g projectors o)

theorem estBlocks_lc_le (gpus : List GpuInfo) (g : GGML) (projectors : List Nat)
    (o : ApiOptions) :
    (estBlocks gpus g projectors o).layerCount ≤ g.kvData.blockCount := by
  unfold estBlocks
  have h := foldBlocks_lc_le gpus g
    (estParams gpus g projectors o).kvPerLayer
    (graphMax (estParams gpus g projectors o)) o.NumGPU
    (List.range g.kvData.blockCount) (estInit gpus g projectors o)
  rw [show (estInit gpus g projectors o).layerCount = 0 from rfl] at h
  simpa using h

theorem estHeadResult_spec (gpus : List GpuInfo) (g : GGML)
    (projectors : List Nat) (o : ApiOptions) (idx : Nat)
    (h : estHeadResult gpus g projectors o = some idx) :
    idx ∈ (estBlocks gpus g projectors o).gws ∧
    (estBlocks gpus g projectors o).alloc idx +
        graphMax (estParams gpus g projectors o) +
        (estParams gpus g projectors o).memoryLayerOutput <
      (gpus.getD idx defaultGpu).FreeMemory := by
  unfold estHeadResult at h
  split at h
  · exact tryHead_some_spec gpus (graphMax (estParams gpus g projectors o))
      (estParams gpus g projectors o).memoryLayerOutput
      (estBlocks gpus g projectors o).layerCount
      (estBlocks gpus g projectors o).gws
      (estBlocks gpus g projectors o).alloc
      (estBlocks gpus g projectors o).gws.length idx (Nat.le_refl _) h
  · simp at h

theorem estAfterHead_lc_none (gpus : List GpuInfo) (g : GGML)
    (projectors : List Nat) (o : ApiOptions)
    (h : estHeadResult gpus g projectors o = none) :
    estAfterHead gpus g projectors o = estBlocks gpus g projectors o := by
  unfold estAfterHead
  rw [h]

theorem estAfterHead_lc_some (gpus : List GpuInfo) (g : GGML)
    (projectors : List Nat) (o : ApiOptions) (idx : Nat)
    (h : estHeadResult gpus g projectors o = some idx) :
    (estAfterHead gpus g projectors o).layerCount =
      (estBlocks gpus g projectors o).layerCount + 1 := by
  unfold estAfterHead
  rw [h]

theorem estAfterHead_alloc_some (gpus : List GpuInfo) (g : GGML)
    (projectors : List Nat) (o : ApiOptions) (idx : Nat)
    (h : estHeadResult gpus g projectors o = some idx) :
    (estAfterHead gpus g projectors o).alloc = fun j =>
      if j = idx then (estBlocks gpus g projectors o).alloc j +
        (estParams gpus g projectors o).memoryLayerOutput
      else (estBlocks gpus g projectors o).alloc j := by
  unfold estAfterHead
  rw [h]

theorem estAfterHead_counts_some (gpus : List GpuInfo) (g : GGML)
    (projectors : List Nat) (o : ApiOptions) (idx : Nat)
    (h : estHeadResult gpus g projectors o = some idx) :
    (estAfterHead gpus g projectors o).counts = fun j =>
      if j = idx then (estBlocks gpus g projectors o).counts j + 1
      else (estBlocks gpus g projectors o).counts j := by
  unfold estAfterHead
  rw [h]

theorem estAfterHead_inv (gpus : List GpuInfo) (g : GGML)
    (projectors : List Nat) (o : ApiOptions) :
    EstInv gpus (graphMax (estParams gpus g projectors o))
      (estAfterHead gpus g projectors o).alloc
      (estAfterHead gpus g projectors o).counts := by
  have hbase := estBlocks_inv gpus g projectors o
  rcases hres : estHeadResult gpus g projectors o with _ | idx
  · rw [estAfterHead_lc_none gpus g projectors o hres]
    exact hbase
  · obtain ⟨hmem, hfit⟩ := estHeadResult_spec gpus g projectors o idx hres
    rw [estAfterHead_alloc_some gpus g projectors o idx hres,
        estAfterHead_counts_some gpus g projectors o idx hres]
    intro x
    dsimp only
    by_cases hx : x = idx
    · subst hx
      right
      rw [if_pos rfl]
      omega
    · rw [if_neg hx, if_neg hx]
      exact hbase x

theorem chosenGraph_le (P : EstParams) (b : Bool) :
    (if b then P.graphFullOffload else P.graphPartialOffload) ≤ graphMax P := by
  unfold graphMax
  cases b <;> simp [le_max_left, le_max_right]

theorem estAllocFinal_le (gpus : List GpuInfo) (g : GGML)
    (projectors : List Nat) (o : ApiOptions) (x : Nat) :
    estAllocFinal gpus g projectors o x ≤ (gpus.getD x defaultGpu).FreeMemory := by
  unfold estAllocFinal
  have hch := chosenGraph_le (estParams gpus g projectors o)
    (estFullyLoadedFinal gpus g projectors o)
  rcases estAfterHead_inv gpus g projectors o x with ⟨hc, hle⟩ | hle
  · rw [hc]
    simpa using hle
  · by_cases hcx : 0 < (estAfterHead gpus g projectors o).counts x
    · rw [if_pos hcx]
      omega
    · rw [if_neg hcx]
      omega

/-! ## Shape of the returned estimate -/

theorem estGPUSizes_length (gpus : List GpuInfo) (g : GGML)
    (projectors : List Nat) (o : ApiOptions) :
    (estGPUSizes gpus g projectors o).length = gpus.length := by
  simp [estGPUSizes]

theorem estGPUSizes_getD_lt (gpus : List GpuInfo) (g : GGML)
    (projectors : List Nat) (o : ApiOptions) (i : Nat) (hi : i < gpus.length) :
    (estGPUSizes gpus g projectors o).getD i 0 =
      estAllocFinal gpus g projectors o i := by
  unfold estGPUSizes
  rw [List.getD_eq_getElem _ _ (by simpa using hi)]
  simp

theorem estGPUSizes_getD_ge (gpus : List GpuInfo) (g : GGML)
    (projectors : List Nat) (o : ApiOptions) (i : Nat)
    (hi : gpus.length ≤ i) :
    (estGPUSizes gpus g projectors o).getD i 0 = 0 := by
  apply List.getD_eq_default
  simpa [estGPUSizes] using hi

theorem estAfterZero_gws (gpus : List GpuInfo) (g : GGML)
    (projectors : List Nat) (o : ApiOptions) :
    (estAfterZero gpus g projectors o).gws = (estFilter gpus g projectors o).gws := by
  simp only [estAfterZero]
  rcases hgw : (estFilter gpus g projectors o).gws with _ | ⟨i0, rest⟩ <;> simp [hgw]

theorem estInit_gws (gpus : List GpuInfo) (g : GGML) (projectors : List Nat)
    (o : ApiOptions) :
    (estInit gpus g projectors o).gws = (estFilter gpus g projectors o).gws :=
  estAfterZero_gws gpus g projectors o

theorem estHeadAttempted_of_some (gpus : List GpuInfo) (g : GGML)
    (projectors : List Nat) (o : ApiOptions) (idx : Nat)
    (h : estHeadResult gpus g projectors o = some idx) :
    estHeadAttempted gpus g projectors o := by
  unfold estHeadResult at h
  split at h
  · rename_i hc
    exact hc
  · simp at h

theorem estHeadResult_none_not_attempted (gpus : List GpuInfo) (g : GGML)
    (projectors : List Nat) (o : ApiOptions)
    (h : ¬ estHeadAttempted gpus g projectors o) :
    estHeadResult gpus g projectors o = none := by
  unfold estHeadAttempted at h
  unfold estHeadResult
  rw [if_neg h]

theorem estHeadResult_some_blocks_full (gpus : List GpuInfo) (g : GGML)
    (projectors : List Nat) (o : ApiOptions) (idx : Nat)
    (hres : estHeadResult gpus g projectors o = some idx) :
    (estBlocks gpus g projectors o).layerCount = g.kvData.blockCount := by
  have hatt := estHeadAttempted_of_some gpus g projectors o idx hres
  have hgws : (estBlocks gpus g projectors o).gws ≠ [] := by
    intro hnil
    unfold estHeadResult at hres
    split at hres
    · rw [hnil] at hres
      simp [tryHead] at hres
    · simp at hres
  have hcond := hatt.2
  unfold estBlocks at hgws ⊢
  have hfull := foldBlocks_full gpus g
    (estParams gpus g projectors o).kvPerLayer
    (graphMax (estParams gpus g projectors o)) o.NumGPU
    (List.range g.kvData.blockCount) (estInit gpus g projectors o) hgws
    (by unfold estBlocks at hcond; exact hcond)
  rw [show (estInit gpus g projectors o).layerCount = 0 from rfl] at hfull
  simpa using hfull

theorem estLayerCountFinal_le (gpus : List GpuInfo) (g : GGML)
    (projectors : List Nat) (o : ApiOptions) :
    estLayerCountFinal gpus g projectors o ≤ g.kvData.blockCount + 1 := by
  unfold estLayerCountFinal
  rcases hres : estHeadResult gpus g projectors o with _ | idx
  · rw [estAfterHead_lc_none gpus g projectors o hres]
    exact le_trans (estBlocks_lc_le gpus g projectors o) (Nat.le_succ _)
  · rw [estAfterHead_lc_some gpus g projectors o idx hres]
    exact Nat.succ_le_succ (estBlocks_lc_le gpus g projectors o)

/-! ## Branches of the returned estimate -/

theorem estimateGPULayers_degenerate (gpus : List GpuInfo) (g : GGML)
    (projectors : List Nat) (o : ApiOptions)
    (h : (gpus.getD 0 defaultGpu).Library = "cpu" ∨
      (estAfterHead gpus g projectors o).layerCount = 0) :
    EstimateGPULayers gpus g projectors o =
      ⟨0, 0, 0, estTotal gpus g projectors o, "", []⟩ := by
  unfold EstimateGPULayers
  rw [if_pos h]

theorem estimateGPULayers_normal (gpus : List GpuInfo) (g : GGML)
    (projectors : List Nat) (o : ApiOptions)
    (h : ¬ ((gpus.getD 0 defaultGpu).Library = "cpu" ∨
      (estAfterHead gpus g projectors o).layerCount = 0)) :
    EstimateGPULayers gpus g projectors o =
      ⟨(estAfterHead gpus g projectors o).layerCount,
       (if estFullyLoadedFinal gpus g projectors o then
          (estParams gpus g projectors o).graphFullOffload
        else (estParams gpus g projectors o).graphPartialOffload),
       estVRAM gpus g projectors o,
       estTotal gpus g projectors o,
       estTensorSplit gpus g projectors o,
       estGPUSizes gpus g projectors o⟩ := by
  unfold EstimateGPULayers
  rw [if_neg h]

/-! ## Concrete inputs used by witnesses and counterexamples -/

/-- A healthy single accelerator: 41 bytes free, no minimum reservation. -/
def wgpu : GpuInfo := ⟨"cuda", 41, 0⟩

/-- A one-block model: block 0 weighs 10 bytes, the head (output-norm)
weighs 10 bytes, no KV cache, no graph requirement. -/
def wg : GGML :=
  ⟨⟨1, 0, 0, 0, 0⟩, fun i => if i = 0 then some 10 else none,
   some 10, none, none, fun _ _ => (0, 0)⟩

/-- Auto-sentinel options: requested layer count −1. -/
def woAuto : ApiOptions := ⟨0, 0, -1⟩

/-- A two-block model whose blocks have very different sizes (1 and 100
bytes) and no head. -/
def cg8 : GGML :=
  ⟨⟨2, 0, 0, 0, 0⟩,
   fun i => if i = 0 then some 1 else if i = 1 then some 100 else none,
   none, none, none, fun _ _ => (0, 0)⟩

/-- A two-block model with uniform 10-byte blocks and a 10-byte head. -/
def cg4 : GGML :=
  ⟨⟨2, 0, 0, 0, 0⟩, fun i => if i ≤ 1 then some 10 else none,
   some 10, none, none, fun _ _ => (0, 0)⟩

/-! ## C1 -/

/-- C1 (counterexample): with an explicit requested layer count of 1 on a
one-block model with a nonzero head, the single block is placed, the head is
excluded by the cap without entering overflow, and the returned estimate has
`VRAMSize = TotalSize` while `Layers = 1 ≠ blockCount + 1 = 2` — refuting the
claimed "equality only if Layers = blockCount + 1 when head size > 0". -/
theorem c1_counterexample :
    (EstimateGPULayers [wgpu] wg [] ⟨0, 0, 1⟩).VRAMSize =
      (EstimateGPULayers [wgpu] wg [] ⟨0, 0, 1⟩).TotalSize ∧
    0 < (estParams [wgpu] wg [] ⟨0, 0, 1⟩).memoryLayerOutput ∧
    (EstimateGPULayers [wgpu] wg [] ⟨0, 0, 1⟩).Layers ≠
      wg.kvData.blockCount + 1 := by
  decide

/-- C1 (amended): `VRAMSize ≤ TotalSize` always holds, and
`VRAMSize = TotalSize` holds IF `Layers = blockCount + 1` when the head size
is positive, or `Layers = blockCount` when the head size is zero; the
converse implication fails (explicit caps, degenerate cpu/zero-layer paths,
and zero-size trailing blocks can reach equality with other layer counts). -/
theorem c1_theorem (gpus : List GpuInfo) (g : GGML) (projectors : List Nat)
    (o : ApiOptions) (h1 : gpus ≠ []) (h2 : 0 < g.kvData.blockCount) :
    (EstimateGPULayers gpus g projectors o).VRAMSize ≤
      (EstimateGPULayers gpus g projectors o).TotalSize ∧
    ((0 < (estParams gpus g projectors o).memoryLayerOutput ∧
        (EstimateGPULayers gpus g projectors o).Layers =
          g.kvData.blockCount + 1) →
      (EstimateGPULayers gpus g projectors o).VRAMSize =
        (EstimateGPULayers gpus g projectors o).TotalSize) ∧
    (((estParams gpus g projectors o).memoryLayerOutput = 0 ∧
        (EstimateGPULayers gpus g projectors o).Layers = g.kvData.blockCount) →
      (EstimateGPULayers gpus g projectors o).VRAMSize =
        (EstimateGPULayers gpus g projectors o).TotalSize) := by
  refine ⟨?_, ?_, ?_⟩
  · by_cases hd : (gpus.getD 0 defaultGpu).Library = "cpu" ∨
        (estAfterHead gpus g projectors o).layerCount = 0
    · rw [estimateGPULayers_degenerate gpus g projectors o hd]
      exact Nat.zero_le _
    · rw [estimateGPULayers_normal gpus g projectors o hd]
      exact Nat.le_add_right _ _
  · rintro ⟨hmlo, hlay⟩
    by_cases hd : (gpus.getD 0 defaultGpu).Library = "cpu" ∨
        (estAfterHead gpus g projectors o).layerCount = 0
    · rw [estimateGPULayers_degenerate gpus g projectors o hd] at hlay
      dsimp only at hlay
      exact absurd hlay.symm (Nat.succ_ne_zero _)
    · rw [estimateGPULayers_normal gpus g projectors o hd] at hlay ⊢
      dsimp only at hlay
      have hov : estOverflowFinal gpus g projectors o = 0 := by
        rcases hres : estHeadResult gpus g projectors o with _ | idx
        · exfalso
          have := estAfterHead_lc_none gpus g projectors o hres
          have hle := estBlocks_lc_le gpus g projectors o
          rw [this] at hlay
          omega
        · have hsome := estAfterHead_lc_some gpus g projectors o idx hres
          have hfullb := estHeadResult_some_blocks_full gpus g projectors o idx hres
          have hov1 : estOverflow1 gpus g projectors o = 0 := by
            unfold estOverflow1
            rw [if_pos (le_of_eq hfullb.symm)]
          unfold estOverflowFinal
          rw [hov1, if_neg]
          intro hc
          rw [hlay] at hc
          exact lt_irrefl _ hc.2
      show estVRAM gpus g projectors o = estTotal gpus g projectors o
      unfold estTotal
      rw [hov]
      omega
  · rintro ⟨hmlo, hlay⟩
    by_cases hd : (gpus.getD 0 defaultGpu).Library = "cpu" ∨
        (estAfterHead gpus g projectors o).layerCount = 0
    · rw [estimateGPULayers_degenerate gpus g projectors o hd] at hlay
      dsimp only at hlay
      omega
    · rw [estimateGPULayers_normal gpus g projectors o hd] at hlay ⊢
      dsimp only at hlay
      have hnatt : ¬ estHeadAttempted gpus g projectors o := by
        intro hatt
        unfold estHeadAttempted at hatt
        rw [hmlo] at hatt
        exact lt_irrefl 0 hatt.1
      have hres := estHeadResult_none_not_attempted gpus g projectors o hnatt
      have heq := estAfterHead_lc_none gpus g projectors o hres
      have hlcb : (estBlocks gpus g projectors o).layerCount =
          g.kvData.blockCount := by
        rw [← heq]
        exact hlay
      have hov1 : estOverflow1 gpus g projectors o = 0 := by
        unfold estOverflow1
        rw [if_pos (le_of_eq hlcb.symm)]
      have hov : estOverflowFinal gpus g projectors o = 0 := by
        unfold estOverflowFinal
        rw [hov1, if_neg]
        intro hc
        exact hnatt hc.1
      show estVRAM gpus g projectors o = estTotal gpus g projectors o
      unfold estTotal
      rw [hov]
      omega

/-- C1 witness: the amended theorem applied to a concrete fully-loadable
configuration. -/
theorem c1_witness :
    (EstimateGPULayers [wgpu] wg [] woAuto).VRAMSize ≤
      (EstimateGPULayers [wgpu] wg [] woAuto).TotalSize :=
  (c1_theorem [wgpu] wg [] woAuto (by simp) (by decide)).1

/-! ## C6 -/

/-- C6 (counterexample): for a cpu-library device group the estimator takes
the degenerate path and returns an empty `GPUSizes`, whose length 0 differs
from the device-group length 1 — refuting "GPUSizes length always equals the
device-group length". -/
theorem c6_counterexample :
    (EstimateGPULayers [⟨"cpu", 1000, 0⟩] wg [] woAuto).GPUSizes.length ≠
      ([⟨"cpu", 1000, 0⟩] : List GpuInfo).length := by
  decide

/-- C6 (amended): `GPUSizes` has length equal to the device-group length
exactly on the non-degenerate path; in the cpu-library and zero-placed-layer
returns it is empty. -/
theorem c6_theorem (gpus : List GpuInfo) (g : GGML) (projectors : List Nat)
    (o : ApiOptions) (h1 : gpus ≠ []) (h2 : 0 < g.kvData.blockCount) :
    (EstimateGPULayers gpus g projectors o).GPUSizes.length =
      if (gpus.getD 0 defaultGpu).Library = "cpu" ∨
          (EstimateGPULayers gpus g projectors o).Layers = 0 then 0
      else gpus.length := by
  by_cases hd : (gpus.getD 0 defaultGpu).Library = "cpu" ∨
      (estAfterHead gpus g projectors o).layerCount = 0
  · rw [estimateGPULayers_degenerate gpus g projectors o hd]
    dsimp only
    rw [if_pos (Or.inr rfl)]
    rfl
  · rw [estimateGPULayers_normal gpus g projectors o hd]
    dsimp only
    push_neg at hd
    rw [if_neg, estGPUSizes_length]
    intro hc
    rcases hc with hc | hc
    · exact hd.1 hc
    · exact hd.2 hc

/-- C6 witness: the amended theorem applied to a cuda device that places
layers. -/
theorem c6_witness :
    (EstimateGPULayers [wgpu] wg [] woAuto).GPUSizes.length =
      if ([wgpu].getD 0 defaultGpu).Library = "cpu" ∨
          (EstimateGPULayers [wgpu] wg [] woAuto).Layers = 0 then 0
      else ([wgpu] : List GpuInfo).length :=
  c6_theorem [wgpu] wg [] woAuto (by simp) (by decide)

/-! ## C7 -/

/-- C7: for every input (nonempty device group, at least one block), the sum
of the returned `GPUSizes` equals the returned `VRAMSize` — in the normal
path both are the summed per-device allocations, and in the degenerate paths
both are zero. -/
theorem c7_theorem (gpus : List GpuInfo) (g : GGML) (projectors : List Nat)
    (o : ApiOptions) (h1 : gpus ≠ []) (h2 : 0 < g.kvData.blockCount) :
    (EstimateGPULayers gpus g projectors o).GPUSizes.sum =
      (EstimateGPULayers gpus g projectors o).VRAMSize := by
  by_cases hd : (gpus.getD 0 defaultGpu).Library = "cpu" ∨
      (estAfterHead gpus g projectors o).layerCount = 0
  · rw [estimateGPULayers_degenerate gpus g projectors o hd]
    rfl
  · rw [estimateGPULayers_normal gpus g projectors o hd]
    rfl

/-- C7 witness. -/
theorem c7_witness :
    (EstimateGPULayers [wgpu] wg [] woAuto).GPUSizes.sum =
      (EstimateGPULayers [wgpu] wg [] woAuto).VRAMSize :=
  c7_theorem [wgpu] wg [] woAuto (by simp) (by decide)

/-! ## C8 -/

/-- C8 (counterexample): a two-block model with block sizes 1 and 100 on a
device that places nothing accumulates overflow `2 × 100 = 200`, not
`(blockCount − placed) ×` the block-0 representative size `= 2 × 1` — the
overflow loop multiplies by the layer size left over from the *last* block
iteration, not by the block-0 size. -/
theorem c8_counterexample :
    ¬ (estOverflow1 [⟨"cuda", 0, 0⟩] cg8 [] woAuto =
        (cg8.kvData.blockCount -
          (estBlocks [⟨"cuda", 0, 0⟩] cg8 [] woAuto).layerCount) *
          (estParams [⟨"cuda", 0, 0⟩] cg8 [] woAuto).layerSize) := by
  decide

/-- C8 (amended): when p blocks were placed, the block overflow equals
`(blockCount − p)` times the layer size in effect at the *end* of the block
loop (the size of the highest-indexed block present in the tensor map, plus
the per-layer cache share) — which coincides with the block-0 representative
size only when all block sizes agree or no per-block sizes are present. -/
theorem c8_theorem (gpus : List GpuInfo) (g : GGML) (projectors : List Nat)
    (o : ApiOptions) (h1 : gpus ≠ []) (h2 : 0 < g.kvData.blockCount) :
    (estBlocks gpus g projectors o).layerCount ≤ g.kvData.blockCount ∧
    estOverflow1 gpus g projectors o =
      (g.kvData.blockCount - (estBlocks gpus g projectors o).layerCount) *
        (estBlocks gpus g projectors o).layerSize := by
  refine ⟨estBlocks_lc_le gpus g projectors o, ?_⟩
  unfold estOverflow1
  by_cases hle : g.kvData.blockCount ≤ (estBlocks gpus g projectors o).layerCount
  · rw [if_pos hle]
    rw [Nat.sub_eq_zero_of_le hle]
    simp
  · rw [if_neg hle]

/-- C8 witness. -/
theorem c8_witness :
    (estBlocks [wgpu] wg [] woAuto).layerCount ≤ wg.kvData.blockCount ∧
    estOverflow1 [wgpu] wg [] woAuto =
      (wg.kvData.blockCount - (estBlocks [wgpu] wg [] woAuto).layerCount) *
        (estBlocks [wgpu] wg [] woAuto).layerSize :=
  c8_theorem [wgpu] wg [] woAuto (by simp) (by decide)

/-! ## C9 -/

/-- C9: every entry of the returned `GPUSizes` stays within the
corresponding device's reported free memory: the eligibility pre-charges,
block placements, head placement and final graph charge are all guarded by
strict free-memory tests that leave room for the graph charge. -/
theorem c9_theorem (gpus : List GpuInfo) (g : GGML) (projectors : List Nat)
    (o : ApiOptions) (h1 : gpus ≠ []) (h2 : 0 < g.kvData.blockCount)
    (i : Nat) :
    (EstimateGPULayers gpus g projectors o).GPUSizes.getD i 0 ≤
      (gpus.getD i defaultGpu).FreeMemory := by
  by_cases hd : (gpus.getD 0 defaultGpu).Library = "cpu" ∨
      (estAfterHead gpus g projectors o).layerCount = 0
  · rw [estimateGPULayers_degenerate gpus g projectors o hd]
    exact Nat.zero_le _
  · rw [estimateGPULayers_normal gpus g projectors o hd]
    dsimp only
    by_cases hi : i < gpus.length
    · rw [estGPUSizes_getD_lt gpus g projectors o i hi]
      exact estAllocFinal_le gpus g projectors o i
    · rw [estGPUSizes_getD_ge gpus g projectors o i (Nat.le_of_not_lt hi)]
      exact Nat.zero_le _

/-- C9 witness. -/
theorem c9_witness :
    (EstimateGPULayers [wgpu] wg [] woAuto).GPUSizes.getD 0 0 ≤
      ([wgpu].getD 0 defaultGpu).FreeMemory :=
  c9_theorem [wgpu] wg [] woAuto (by simp) (by decide) 0

/-! ## C10 -/

/-- C10: the estimator dereferences the first device before anything else,
so it is defined only for nonempty device groups: the guarded embedding
returns `none` on the empty group (the source panics there instead of
returning the zero-layer degenerate estimate) and `some` of the estimate on
every nonempty group. -/
theorem c10_theorem (g : GGML) (projectors : List Nat) (o : ApiOptions) :
    EstimateGPULayersChecked [] g projectors o = none ∧
    ∀ gpus : List GpuInfo, gpus ≠ [] →
      EstimateGPULayersChecked gpus g projectors o =
        some (EstimateGPULayers gpus g projectors o) := by
  constructor
  · rfl
  · intro gpus hne
    unfold EstimateGPULayersChecked
    rw [if_neg]
    simpa using hne

/-- C10 witness. -/
theorem c10_witness :
    EstimateGPULayersChecked [wgpu] wg [] woAuto =
      some (EstimateGPULayers [wgpu] wg [] woAuto) :=
  (c10_theorem wg [] woAuto).2 [wgpu] (by simp)

/-! ## C2 -/

theorem predictGo_cons (g : GGML) (projectors : List Nat) (o : ApiOptions)
    (gpus : List GpuInfo) (rest : List (List GpuInfo)) (acc : Nat) :
    predictGo g projectors o (gpus :: rest) acc =
      if groupFits g projectors o gpus then
        (true, (EstimateGPULayers gpus g projectors o).VRAMSize)
      else predictGo g projectors o rest
        (EstimateGPULayers gpus g projectors o).VRAMSize := by
  rfl

theorem predictGo_fit (g : GGML) (projectors : List Nat) (o : ApiOptions) :
    ∀ (pre : List (List GpuInfo)) (gr : List GpuInfo)
      (post : List (List GpuInfo)) (acc : Nat),
      (∀ x ∈ pre, ¬ groupFits g projectors o x) → groupFits g projectors o gr →
      predictGo g projectors o (pre ++ gr :: post) acc =
        (true, (EstimateGPULayers gr g projectors o).VRAMSize) := by
  intro pre
  induction pre with
  | nil =>
    intro gr post acc _ hfit
    rw [List.nil_append, predictGo_cons, if_pos hfit]
  | cons a t ih =>
    intro gr post acc hpre hfit
    rw [List.cons_append, predictGo_cons,
      if_neg (hpre a (List.mem_cons_self a t))]
    exact ih gr post _ (fun x hx => hpre x (List.mem_cons_of_mem a hx)) hfit

theorem predictGo_nofit (g : GGML) (projectors : List Nat) (o : ApiOptions) :
    ∀ (pre : List (List GpuInfo)) (gr : List GpuInfo) (acc : Nat),
      (∀ x ∈ pre ++ [gr], ¬ groupFits g projectors o x) →
      predictGo g projectors o (pre ++ [gr]) acc =
        (false, (EstimateGPULayers gr g projectors o).VRAMSize) := by
  intro pre
  induction pre with
  | nil =>
    intro gr acc hno
    rw [List.nil_append, predictGo_cons,
      if_neg (hno gr (List.mem_cons_self gr []))]
    rfl
  | cons a t ih =>
    intro gr acc hno
    rw [List.cons_append, predictGo_cons,
      if_neg (hno a (List.mem_cons_self a _))]
    exact ih gr _ (fun x hx => hno x (List.mem_cons_of_mem a hx))

/-- C2: the predictor walks the device-library groupings in the caller's
enumeration order; the first grouping whose estimate has a positive placed
count and — auto sentinel — placed ≥ blockCount + 1, or — explicit request —
placed ≥ requested, yields `(true, that grouping's VRAMSize)`; when no
grouping fits, it returns `false` with the VRAMSize of the last grouping
evaluated. -/
theorem c2_theorem (g : GGML) (projectors : List Nat) (o : ApiOptions) :
    (∀ (pre : List (List GpuInfo)) (gr : List GpuInfo)
        (post : List (List GpuInfo)),
      (∀ x ∈ pre, ¬ groupFits g projectors o x) → groupFits g projectors o gr →
      PredictServerFit (pre ++ gr :: post) g projectors o =
        (true, (EstimateGPULayers gr g projectors o).VRAMSize)) ∧
    (∀ (pre : List (List GpuInfo)) (gr : List GpuInfo),
      (∀ x ∈ pre ++ [gr], ¬ groupFits g projectors o x) →
      PredictServerFit (pre ++ [gr]) g projectors o =
        (false, (EstimateGPULayers gr g projectors o).VRAMSize)) := by
  constructor
  · intro pre gr post hpre hfit
    exact predictGo_fit g projectors o pre gr post 0 hpre hfit
  · intro pre gr hno
    exact predictGo_nofit g projectors o pre gr 0 hno

/-- C2 witness: a single fitting grouping. -/
theorem c2_witness :
    PredictServerFit [[wgpu]] wg [] woAuto =
      (true, (EstimateGPULayers [wgpu] wg [] woAuto).VRAMSize) :=
  (c2_theorem wg [] woAuto).1 [] [wgpu] [] (by simp) (by decide)

/-! ## C3 -/

/-- C3: when the head branch runs (nonzero head size and cap not reached),
the full-load flag is cleared and the head size enters overflow exactly when
the head placement attempt fails; a successfully placed head leaves both the
overflow and the full-load flag of the block phase untouched, so it is never
counted both in a device allocation and in the overflow term. -/
theorem c3_theorem (gpus : List GpuInfo) (g : GGML) (projectors : List Nat)
    (o : ApiOptions) (h1 : gpus ≠ []) (h2 : 0 < g.kvData.blockCount)
    (hatt : estHeadAttempted gpus g projectors o) :
    (estHeadResult gpus g projectors o = none ↔
      estFullyLoadedFinal gpus g projectors o = false ∧
      estOverflowFinal gpus g projectors o =
        estOverflow1 gpus g projectors o +
          (estParams gpus g projectors o).memoryLayerOutput) ∧
    (∀ idx, estHeadResult gpus g projectors o = some idx →
      estOverflowFinal gpus g projectors o = estOverflow1 gpus g projectors o ∧
      estFullyLoadedFinal gpus g projectors o =
        estFullyLoaded1 gpus g projectors o) := by
  have hmlo : 0 < (estParams gpus g projectors o).memoryLayerOutput := by
    unfold estHeadAttempted at hatt
    exact hatt.1
  have hsome_case : ∀ idx, estHeadResult gpus g projectors o = some idx →
      estOverflowFinal gpus g projectors o = estOverflow1 gpus g projectors o ∧
      estFullyLoadedFinal gpus g projectors o =
        estFullyLoaded1 gpus g projectors o := by
    intro idx hres
    have hfullb := estHeadResult_some_blocks_full gpus g projectors o idx hres
    have hsucc := estAfterHead_lc_some gpus g projectors o idx hres
    have hge : ¬ ((estAfterHead gpus g projectors o).layerCount <
        g.kvData.blockCount + 1) := by
      rw [hsucc, hfullb]
      exact lt_irrefl _
    constructor
    · unfold estOverflowFinal
      rw [if_neg (fun hc => hge hc.2)]
      omega
    · unfold estFullyLoadedFinal
      rw [if_neg (fun hc => hge hc.2)]
  refine ⟨⟨?_, ?_⟩, hsome_case⟩
  · intro hres
    have heq := estAfterHead_lc_none gpus g projectors o hres
    have hlt : (estAfterHead gpus g projectors o).layerCount <
        g.kvData.blockCount + 1 := by
      rw [heq]
      exact Nat.lt_succ_of_le (estBlocks_lc_le gpus g projectors o)
    constructor
    · unfold estFullyLoadedFinal
      rw [if_pos ⟨hatt, hlt⟩]
    · unfold estOverflowFinal
      rw [if_pos ⟨hatt, hlt⟩]
  · rintro ⟨hfl, hov⟩
    rcases hres : estHeadResult gpus g projectors o with _ | idx
    · rfl
    · exfalso
      have := (hsome_case idx hres).1
      rw [this] at hov
      omega

/-- C3 witness: the head branch runs and the head is placed on the single
device. -/
theorem c3_witness :
    (estHeadResult [wgpu] wg [] woAuto = none ↔
      estFullyLoadedFinal [wgpu] wg [] woAuto = false ∧
      estOverflowFinal [wgpu] wg [] woAuto =
        estOverflow1 [wgpu] wg [] woAuto +
          (estParams [wgpu] wg [] woAuto).memoryLayerOutput) ∧
    (∀ idx, estHeadResult [wgpu] wg [] woAuto = some idx →
      estOverflowFinal [wgpu] wg [] woAuto = estOverflow1 [wgpu] wg [] woAuto ∧
      estFullyLoadedFinal [wgpu] wg [] woAuto =
        estFullyLoaded1 [wgpu] wg [] woAuto) :=
  c3_theorem [wgpu] wg [] woAuto (by simp) (by decide) (by decide)

/-! ## C5 -/

/-- The filter state after processing only the devices before index `i`
(the state in which device `i`'s eligibility test runs). -/
def estFilterUpTo (gpus : List GpuInfo) (g : GGML) (projectors : List Nat)
    (o : ApiOptions) (i : Nat) : FilterSt :=
  (List.range i).foldl
    (filterStep gpus (estParams gpus g projectors o).projectorSize
      (graphMax (estParams gpus g projectors o))
      (estParams gpus g projectors o).layerSize) ⟨[], fun _ => 0⟩

theorem estFilter_decomp (gpus : List GpuInfo) (g : GGML)
    (projectors : List Nat) (o : ApiOptions) (i : Nat)
    (hi : i < gpus.length) :
    estFilter gpus g projectors o =
      (List.range' (i+1) (gpus.length - i - 1)).foldl
        (filterStep gpus (estParams gpus g projectors o).projectorSize
          (graphMax (estParams gpus g projectors o))
          (estParams gpus g projectors o).layerSize)
        (filterStep gpus (estParams gpus g projectors o).projectorSize
          (graphMax (estParams gpus g projectors o))
          (estParams gpus g projectors o).layerSize
          (estFilterUpTo gpus g projectors o i) i) := by
  have e1 : List.range' 0 i ++ List.range' i (gpus.length - i) =
      List.range' 0 gpus.length := by
    have h := List.range'_append 0 i (gpus.length - i) 1
    simpa [Nat.sub_add_cancel (le_of_lt hi)] using h
  have e2 : List.range' i (gpus.length - i) =
      i :: List.range' (i+1) (gpus.length - i - 1) := by
    obtain ⟨k, hk⟩ : ∃ k, gpus.length - i = k + 1 := ⟨gpus.length - i - 1, by omega⟩
    rw [hk]
    rfl
  unfold estFilter estFilterUpTo
  rw [List.range_eq_range', ← e1, e2, List.foldl_append, List.foldl_cons,
    List.range_eq_range']

/-- C5: a device whose free memory is below the graph head-room plus its
minimum reservation plus two layer sizes (plus the first-device projector
overhead when no earlier device was kept) is excluded from placement and its
entry in the returned `GPUSizes` is zero. -/
theorem c5_theorem (gpus : List GpuInfo) (g : GGML) (projectors : List Nat)
    (o : ApiOptions) (h1 : gpus ≠ []) (h2 : 0 < g.kvData.blockCount)
    (i : Nat) (hi : i < gpus.length)
    (hfree : (gpus.getD i defaultGpu).FreeMemory <
      (if (estFilterUpTo gpus g projectors o i).gws = [] then
        (estParams gpus g projectors o).projectorSize else 0) +
      graphMax (estParams gpus g projectors o) +
      (gpus.getD i defaultGpu).MinimumMemory +
      2 * (estParams gpus g projectors o).layerSize) :
    i ∉ (estFilter gpus g projectors o).gws ∧
    (EstimateGPULayers gpus g projectors o).GPUSizes.getD i 0 = 0 := by
  have hstep : filterStep gpus (estParams gpus g projectors o).projectorSize
      (graphMax (estParams gpus g projectors o))
      (estParams gpus g projectors o).layerSize
      (estFilterUpTo gpus g projectors o i) i =
      estFilterUpTo gpus g projectors o i := by
    rw [filterStep, if_pos hfree]
  have hpre_mem : i ∉ (estFilterUpTo gpus g projectors o i).gws := by
    intro hmem
    rcases filterFold_gws_mem gpus _ _ _ (List.range i) i _ hmem with hmem1 | hmem1
    · simp at hmem1
    · rw [List.mem_range] at hmem1
      exact lt_irrefl i hmem1
  have hpre_alloc : (estFilterUpTo gpus g projectors o i).alloc i = 0 := by
    unfold estFilterUpTo
    rw [filterFold_untouched gpus _ _ _ (List.range i) i _ (by simp)]
  have hdec := estFilter_decomp gpus g projectors o i hi
  have hmem_filter : i ∉ (estFilter gpus g projectors o).gws := by
    rw [hdec, hstep]
    intro hmem
    rcases filterFold_gws_mem gpus _ _ _ _ i _ hmem with hmem1 | hmem1
    · exact hpre_mem hmem1
    · rw [List.mem_range'_1] at hmem1
      omega
  have halloc_filter : (estFilter gpus g projectors o).alloc i = 0 := by
    rw [hdec, hstep]
    rw [filterFold_untouched gpus _ _ _ _ i _
      (by rw [List.mem_range'_1]; omega)]
    exact hpre_alloc
  refine ⟨hmem_filter, ?_⟩
  have hzero_alloc : (estAfterZero gpus g projectors o).alloc i = 0 := by
    simp only [estAfterZero]
    rcases hgw : (estFilter gpus g projectors o).gws with _ | ⟨i0, rest⟩
    · exact halloc_filter
    · dsimp only
      have hne : i ≠ i0 := by
        intro he
        exact hmem_filter (he ▸ (hgw ▸ List.mem_cons_self i0 rest))
      rw [if_neg hne]
      exact halloc_filter
  have hinit_mem : i ∉ (estInit gpus g projectors o).gws := by
    rw [estInit_gws]
    exact hmem_filter
  obtain ⟨hblk_alloc, hblk_counts⟩ := by
    refine foldBlocks_untouched gpus g
      (estParams gpus g projectors o).kvPerLayer
      (graphMax (estParams gpus g projectors o)) o.NumGPU
      (List.range g.kvData.blockCount) i (estInit gpus g projectors o)
      hinit_mem
  have hblocks_alloc : (estBlocks gpus g projectors o).alloc i = 0 := by
    unfold estBlocks
    rw [hblk_alloc]
    exact hzero_alloc
  have hblocks_counts : (estBlocks gpus g projectors o).counts i = 0 := by
    unfold estBlocks
    rw [hblk_counts]
    rfl
  have hblocks_mem : i ∉ (estBlocks gpus g projectors o).gws := by
    intro hmem
    apply hinit_mem
    unfold estBlocks at hmem
    exact foldBlocks_gws_subset gpus g _ _ _ _ _ hmem
  have hhd_alloc : (estAfterHead gpus g projectors o).alloc i = 0 ∧
      (estAfterHead gpus g projectors o).counts i = 0 := by
    rcases hres : estHeadResult gpus g projectors o with _ | idx
    · rw [estAfterHead_lc_none gpus g projectors o hres]
      exact ⟨hblocks_alloc, hblocks_counts⟩
    · obtain ⟨hmemidx, -⟩ := estHeadResult_spec gpus g projectors o idx hres
      have hne : i ≠ idx := fun he => hblocks_mem (he ▸ hmemidx)
      rw [estAfterHead_alloc_some gpus g projectors o idx hres,
        estAfterHead_counts_some gpus g projectors o idx hres]
      dsimp only
      rw [if_neg hne, if_neg hne]
      exact ⟨hblocks_alloc, hblocks_counts⟩
  have hfinal : estAllocFinal gpus g projectors o i = 0 := by
    unfold estAllocFinal
    rw [hhd_alloc.1, hhd_alloc.2, if_neg (lt_irrefl 0)]
  by_cases hd : (gpus.getD 0 defaultGpu).Library = "cpu" ∨
      (estAfterHead gpus g projectors o).layerCount = 0
  · rw [estimateGPULayers_degenerate gpus g projectors o hd]
    rfl
  · rw [estimateGPULayers_normal gpus g projectors o hd]
    dsimp only
    rw [estGPUSizes_getD_lt gpus g projectors o i hi]
    exact hfinal

/-- C5 witness: a starved first device next to a healthy second device. -/
theorem c5_witness :
    0 ∉ (estFilter [⟨"cuda", 5, 0⟩, wgpu] wg [] woAuto).gws ∧
    (EstimateGPULayers [⟨"cuda", 5, 0⟩, wgpu] wg [] woAuto).GPUSizes.getD 0 0 =
      0 :=
  c5_theorem [⟨"cuda", 5, 0⟩, wgpu] wg [] woAuto (by simp) (by decide) 0
    (by decide) (by decide)

/-! ## C4 -/

/-- C4 (counterexample): two devices, a two-block model with a head.  With
device 0 at 19 bytes it is ineligible and device 1 holds both blocks and the
head (`Layers = 3`).  Raising device 0 to 21 bytes makes it eligible; the
round-robin places one block on each device, but the head loop probes only
`gpusWithSpace[layerCount % j]`, which is device 0 for both `j = 2` and
`j = 1`, so the head cannot reach device 1 and `Layers` drops to 2 —
refuting monotonicity in a device's free memory. -/
theorem c4_counterexample :
    (([⟨"cuda", 19, 0⟩, wgpu] : List GpuInfo).getD 0 defaultGpu).FreeMemory <
      (([⟨"cuda", 21, 0⟩, wgpu] : List GpuInfo).getD 0 defaultGpu).FreeMemory ∧
    (EstimateGPULayers [⟨"cuda", 21, 0⟩, wgpu] cg4 [] woAuto).Layers <
      (EstimateGPULayers [⟨"cuda", 19, 0⟩, wgpu] cg4 [] woAuto).Layers := by
  decide

theorem blockStepCore_layerSize (gpus : List GpuInfo) (G : Nat) (nG : Int)
    (ls : Nat) (st : PlaceSt) (i : Nat) :
    (blockStepCore gpus G nG ls st i).layerSize = ls := by
  unfold blockStepCore
  split
  · rfl
  · rcases htp : tryPlace gpus G ls i st.gws.length st.gws st.alloc with ⟨gws2, r⟩
    cases r <;> simp

theorem blockStep_layerSize (gpus : List GpuInfo) (g : GGML) (kvs G : Nat)
    (nG : Int) (st : PlaceSt) (i : Nat) :
    (blockStep gpus g kvs G nG st i).layerSize = blockLayerSize g kvs st i :=
  blockStepCore_layerSize gpus G nG _ st i

theorem tryPlace_zeros (gpus : List GpuInfo) (G sz pos : Nat) :
    ∀ (j : Nat) (gws : List Nat) (alloc : Nat → Nat), gws.length = j →
      (∀ x ∈ gws, x = 0) →
      tryPlace gpus G sz pos j gws alloc =
        if gws = [] then ([], none)
        else if alloc 0 + G + sz < (gpus.getD 0 defaultGpu).FreeMemory then
          (gws, some 0)
        else ([], none) := by
  intro j
  induction j with
  | zero =>
    intro gws alloc hlen _
    rw [List.length_eq_zero] at hlen
    subst hlen
    rfl
  | succ j ih =>
    intro gws alloc hlen hz
    have hne : gws ≠ [] := by
      intro he
      rw [he] at hlen
      simp at hlen
    have hk : pos % (j+1) < gws.length := by
      rw [hlen]
      exact Nat.mod_lt _ (Nat.succ_pos j)
    have hidx : gws.getD (pos % (j+1)) 0 = 0 := by
      rw [List.getD_eq_getElem _ _ hk]
      exact hz _ (List.getElem_mem hk)
    rw [tryPlace, hidx, if_neg hne]
    by_cases hfit : alloc 0 + G + sz < (gpus.getD 0 defaultGpu).FreeMemory
    · rw [if_pos hfit, if_pos hfit]
    · rw [if_neg hfit, if_neg hfit]
      have hlen2 : (gws.eraseIdx (pos % (j+1))).length = j := by
        rw [List.length_eraseIdx_of_lt hk]
        omega
      have hz2 : ∀ x ∈ gws.eraseIdx (pos % (j+1)), x = 0 :=
        fun x hx => hz x (List.mem_of_mem_eraseIdx hx)
      rw [ih _ alloc hlen2 hz2]
      by_cases hne2 : gws.eraseIdx (pos % (j+1)) = []
      · rw [if_pos hne2]
      · rw [if_neg hne2, if_neg hfit]

theorem tryHead_zeros (gpus : List GpuInfo) (G sz lc : Nat) (gws : List Nat)
    (alloc : Nat → Nat) (hz : ∀ x ∈ gws, x = 0) :
    ∀ j : Nat, tryHead gpus G sz lc gws alloc j =
      if j = 0 then none
      else if alloc 0 + G + sz < (gpus.getD 0 defaultGpu).FreeMemory then
        some 0
      else none := by
  intro j
  induction j with
  | zero => rfl
  | succ j ih =>
    have hidx : gws.getD (lc % (j+1)) 0 = 0 := by
      by_cases hk : lc % (j+1) < gws.length
      · rw [List.getD_eq_getElem _ _ hk]
        exact hz _ (List.getElem_mem hk)
      · exact List.getD_eq_default _ _ (Nat.le_of_not_lt hk)
    rw [tryHead, hidx, if_neg (Nat.succ_ne_zero j)]
    by_cases hfit : alloc 0 + G + sz < (gpus.getD 0 defaultGpu).FreeMemory
    · rw [if_pos hfit, if_pos hfit]
    · rw [if_neg hfit, if_neg hfit, ih]
      by_cases hj : j = 0
      · rw [if_pos hj]
      · rw [if_neg hj, if_neg hfit]

/-- The simulation relation for single-device monotonicity: either the two
runs are in lock-step (same eligible set — containing only device 0 — same
device-0 allocation and counts, same placed total), or the poorer run has
exhausted its eligible set and its placed total is dominated. -/
def SimR (s1 s2 : PlaceSt) : Prop :=
  s1.layerSize = s2.layerSize ∧
  ((s1.gws = s2.gws ∧ (∀ x ∈ s1.gws, x = 0) ∧ s1.alloc 0 = s2.alloc 0 ∧
      s1.counts 0 = s2.counts 0 ∧ s1.layerCount = s2.layerCount) ∨
   (s1.gws = [] ∧ s1.layerCount ≤ s2.layerCount))

theorem blockStep_sim (d d2 : GpuInfo) (hF : d.FreeMemory ≤ d2.FreeMemory)
    (g : GGML) (kvs G : Nat) (nG : Int) (s1 s2 : PlaceSt) (i : Nat)
    (hsim : SimR s1 s2) :
    SimR (blockStep [d] g kvs G nG s1 i) (blockStep [d2] g kvs G nG s2 i) := by
  obtain ⟨hls, hcase⟩ := hsim
  have hlseq : blockLayerSize g kvs s1 i = blockLayerSize g kvs s2 i := by
    unfold blockLayerSize
    cases hb : g.blkSize i <;> simp [hb, hls]
  have hlsfin : (blockStep [d] g kvs G nG s1 i).layerSize =
      (blockStep [d2] g kvs G nG s2 i).layerSize := by
    rw [blockStep_layerSize, blockStep_layerSize, hlseq]
  rcases hcase with ⟨hgws, hz, hal, hct, hlc⟩ | ⟨hnil, hle⟩
  · refine ⟨hlsfin, ?_⟩
    by_cases hcap : 0 ≤ nG ∧ nG ≤ (s1.layerCount : Int)
    · rw [blockStep, blockStepCore, if_pos hcap, blockStep, blockStepCore,
        if_pos (hlc ▸ hcap)]
      exact Or.inl ⟨hgws, hz, hal, hct, hlc⟩
    · rw [blockStep, blockStepCore, if_neg hcap, blockStep, blockStepCore,
        if_neg (by rw [← hlc]; exact hcap)]
      have hz2 : ∀ x ∈ s2.gws, x = 0 := hgws ▸ hz
      rw [tryPlace_zeros [d] G (blockLayerSize g kvs s1 i) i s1.gws.length
          s1.gws s1.alloc rfl hz,
        tryPlace_zeros [d2] G (blockLayerSize g kvs s2 i) i s2.gws.length
          s2.gws s2.alloc rfl hz2]
      by_cases hnil1 : s1.gws = []
      · have hnil2 : s2.gws = [] := hgws ▸ hnil1
        rw [if_pos hnil1, if_pos hnil2]
        exact Or.inl ⟨rfl, by simp, hal, hct, hlc⟩
      · have hnil2 : s2.gws ≠ [] := hgws ▸ hnil1
        rw [if_neg hnil1, if_neg hnil2]
        by_cases hfit1 : s1.alloc 0 + G + blockLayerSize g kvs s1 i <
            (([d] : List GpuInfo).getD 0 defaultGpu).FreeMemory
        · have hfit2 : s2.alloc 0 + G + blockLayerSize g kvs s2 i <
              (([d2] : List GpuInfo).getD 0 defaultGpu).FreeMemory := by
            show s2.alloc 0 + G + blockLayerSize g kvs s2 i < d2.FreeMemory
            rw [← hal, ← hlseq]
            exact lt_of_lt_of_le hfit1 hF
          rw [if_pos hfit1, if_pos hfit2]
          refine Or.inl ⟨hgws, hz, ?_, ?_, by rw [hlc]⟩
          · dsimp only
            rw [if_pos rfl, if_pos rfl, hal, hlseq]
          · dsimp only
            rw [if_pos rfl, if_pos rfl, hct]
        · rw [if_neg hfit1]
          by_cases hfit2 : s2.alloc 0 + G + blockLayerSize g kvs s2 i <
              (([d2] : List GpuInfo).getD 0 defaultGpu).FreeMemory
          · rw [if_pos hfit2]
            exact Or.inr ⟨rfl, by rw [hlc]; exact Nat.le_succ _⟩
          · rw [if_neg hfit2]
            exact Or.inl ⟨rfl, by simp, hal, hct, hlc⟩
  · refine ⟨hlsfin, ?_⟩
    obtain ⟨h1g, h1lc, -, -⟩ := blockStep_nil [d] g kvs G nG s1 i hnil
    have hlc2 := blockStep_layerCount_le [d2] g kvs G nG s2 i
    rw [h1g, h1lc]
    exact Or.inr ⟨rfl, le_trans hle hlc2⟩

theorem foldBlocks_sim (d d2 : GpuInfo) (hF : d.FreeMemory ≤ d2.FreeMemory)
    (g : GGML) (kvs G : Nat) (nG : Int) (l : List Nat) :
    ∀ s1 s2 : PlaceSt, SimR s1 s2 →
      SimR (l.foldl (blockStep [d] g kvs G nG) s1)
        (l.foldl (blockStep [d2] g kvs G nG) s2) := by
  induction l with
  | nil => intro s1 s2 h; exact h
  | cons a t ih =>
    intro s1 s2 h
    simp only [List.foldl_cons]
    exact ih _ _ (blockStep_sim d d2 hF g kvs G nG s1 s2 a h)

theorem estParams_single_eq (d d2 : GpuInfo) (hL : d2.Library = d.Library)
    (g : GGML) (projectors : List Nat) (o : ApiOptions) :
    estParams [d] g projectors o = estParams [d2] g projectors o := by
  unfold estParams
  simp [hL]

theorem estFilter_single (dd : GpuInfo) (g : GGML) (projectors : List Nat)
    (o : ApiOptions) :
    estFilter [dd] g projectors o =
      if dd.FreeMemory < (estParams [dd] g projectors o).projectorSize +
          graphMax (estParams [dd] g projectors o) + dd.MinimumMemory +
          2 * (estParams [dd] g projectors o).layerSize then
        ⟨[], fun _ => 0⟩
      else
        ⟨[0], fun j => if j = 0 then 0 + dd.MinimumMemory +
          (estParams [dd] g projectors o).layerSize else 0⟩ := rfl

theorem estHeadResult_nil (gpus : List GpuInfo) (g : GGML)
    (projectors : List Nat) (o : ApiOptions)
    (h : (estBlocks gpus g projectors o).gws = []) :
    estHeadResult gpus g projectors o = none := by
  unfold estHeadResult
  split
  · rw [h]
    rfl
  · rfl

theorem estAfterHead_lc_ge (gpus : List GpuInfo) (g : GGML)
    (projectors : List Nat) (o : ApiOptions) :
    (estBlocks gpus g projectors o).layerCount ≤
      (estAfterHead gpus g projectors o).layerCount := by
  rcases hres : estHeadResult gpus g projectors o with _ | idx
  · rw [estAfterHead_lc_none gpus g projectors o hres]
  · rw [estAfterHead_lc_some gpus g projectors o idx hres]
    exact Nat.le_succ _

theorem estInit_sim (d d2 : GpuInfo) (hL : d2.Library = d.Library)
    (hM : d2.MinimumMemory = d.MinimumMemory)
    (hF : d.FreeMemory ≤ d2.FreeMemory) (g : GGML) (projectors : List Nat)
    (o : ApiOptions) :
    SimR (estInit [d] g projectors o) (estInit [d2] g projectors o) := by
  have hP := estParams_single_eq d d2 hL g projectors o
  refine ⟨?_, ?_⟩
  · show (estParams [d] g projectors o).layerSize =
      (estParams [d2] g projectors o).layerSize
    rw [hP]
  · by_cases helig : d.FreeMemory <
        (estParams [d] g projectors o).projectorSize +
        graphMax (estParams [d] g projectors o) + d.MinimumMemory +
        2 * (estParams [d] g projectors o).layerSize
    · refine Or.inr ⟨?_, Nat.le_refl _⟩
      rw [estInit_gws, estFilter_single, if_pos helig]
    · have helig2 : ¬ (d2.FreeMemory <
          (estParams [d2] g projectors o).projectorSize +
          graphMax (estParams [d2] g projectors o) + d2.MinimumMemory +
          2 * (estParams [d2] g projectors o).layerSize) := by
        rw [← hP, hM]
        intro hlt
        exact helig (lt_of_le_of_lt hF hlt)
      have hfil1 : estFilter [d] g projectors o =
          ⟨[0], fun j => if j = 0 then 0 + d.MinimumMemory +
            (estParams [d] g projectors o).layerSize else 0⟩ := by
        rw [estFilter_single, if_neg helig]
      have hfil2 : estFilter [d2] g projectors o =
          ⟨[0], fun j => if j = 0 then 0 + d2.MinimumMemory +
            (estParams [d2] g projectors o).layerSize else 0⟩ := by
        rw [estFilter_single, if_neg helig2]
      refine Or.inl ⟨?_, ?_, ?_, rfl, rfl⟩
      · show (estAfterZero [d] g projectors o).gws =
          (estAfterZero [d2] g projectors o).gws
        rw [estAfterZero_gws, estAfterZero_gws, hfil1, hfil2]
      · show ∀ x ∈ (estAfterZero [d] g projectors o).gws, x = 0
        rw [estAfterZero_gws, hfil1]
        intro x hx
        simpa using hx
      · show (estAfterZero [d] g projectors o).alloc 0 =
          (estAfterZero [d2] g projectors o).alloc 0
        simp only [estAfterZero]
        rw [hfil1, hfil2]
        dsimp only
        rw [hP, hM]

/-- C4 (amended): for a single-device group, increasing the device's free
memory (library and minimum reservation fixed) never decreases the placed
layer count.  The multi-device claim is false (see the counterexample): the
head-placement loop indexes only `gpusWithSpace[layerCount % j]`, so a newly
eligible device can capture the head probe while lacking room for it. -/
theorem c4_theorem (d d2 : GpuInfo) (g : GGML) (projectors : List Nat)
    (o : ApiOptions) (hL : d2.Library = d.Library)
    (hM : d2.MinimumMemory = d.MinimumMemory)
    (hF : d.FreeMemory ≤ d2.FreeMemory) (h2 : 0 < g.kvData.blockCount) :
    (EstimateGPULayers [d] g projectors o).Layers ≤
      (EstimateGPULayers [d2] g projectors o).Layers := by
  have hP := estParams_single_eq d d2 hL g projectors o
  have hsim0 := estInit_sim d d2 hL hM hF g projectors o
  have hB : SimR (estBlocks [d] g projectors o)
      (estBlocks [d2] g projectors o) := by
    unfold estBlocks
    rw [← hP]
    exact foldBlocks_sim d d2 hF g _ _ _ _ _ _ hsim0
  have hlcF : (estAfterHead [d] g projectors o).layerCount ≤
      (estAfterHead [d2] g projectors o).layerCount := by
    obtain ⟨hls, hcase⟩ := hB
    rcases hcase with ⟨hgws, hz, hal, hct, hlc⟩ | ⟨hnil, hle⟩
    · rcases hres1 : estHeadResult [d] g projectors o with _ | idx
      · rw [estAfterHead_lc_none _ _ _ _ hres1, hlc]
        exact estAfterHead_lc_ge [d2] g projectors o
      · have hatt1 := estHeadAttempted_of_some [d] g projectors o idx hres1
        have hcond1 : 0 < (estParams [d] g projectors o).memoryLayerOutput ∧
            (o.NumGPU < 0 ∨
              ((estBlocks [d] g projectors o).layerCount : Int) < o.NumGPU) :=
          hatt1
        have hres1' : tryHead [d]
            (graphMax (estParams [d] g projectors o))
            (estParams [d] g projectors o).memoryLayerOutput
            (estBlocks [d] g projectors o).layerCount
            (estBlocks [d] g projectors o).gws
            (estBlocks [d] g projectors o).alloc
            (estBlocks [d] g projectors o).gws.length = some idx := by
          unfold estHeadResult at hres1
          rw [if_pos hcond1] at hres1
          exact hres1
        rw [tryHead_zeros [d] _ _ _ _ _ hz] at hres1'
        by_cases hj : (estBlocks [d] g projectors o).gws.length = 0
        · rw [if_pos hj] at hres1'
          exact absurd hres1' (by simp)
        · rw [if_neg hj] at hres1'
          by_cases hfit1 : (estBlocks [d] g projectors o).alloc 0 +
              graphMax (estParams [d] g projectors o) +
              (estParams [d] g projectors o).memoryLayerOutput <
              (([d] : List GpuInfo).getD 0 defaultGpu).FreeMemory
          · have hcond2 :
                0 < (estParams [d2] g projectors o).memoryLayerOutput ∧
                (o.NumGPU < 0 ∨
                  ((estBlocks [d2] g projectors o).layerCount : Int) <
                    o.NumGPU) := by
              rw [← hP, ← hlc]
              exact hcond1
            have hfit2 : (estBlocks [d2] g projectors o).alloc 0 +
                graphMax (estParams [d2] g projectors o) +
                (estParams [d2] g projectors o).memoryLayerOutput <
                (([d2] : List GpuInfo).getD 0 defaultGpu).FreeMemory := by
              show (estBlocks [d2] g projectors o).alloc 0 +
                graphMax (estParams [d2] g projectors o) +
                (estParams [d2] g projectors o).memoryLayerOutput <
                d2.FreeMemory
              rw [← hP, ← hal]
              exact lt_of_lt_of_le hfit1 hF
            have hres2 : estHeadResult [d2] g projectors o = some 0 := by
              unfold estHeadResult
              rw [if_pos hcond2,
                tryHead_zeros [d2] _ _ _ _ _ (hgws ▸ hz),
                if_neg (show ¬ ((estBlocks [d2] g projectors o).gws.length = 0)
                  from by rw [← hgws]; exact hj),
                if_pos hfit2]
            rw [estAfterHead_lc_some _ _ _ _ idx hres1,
              estAfterHead_lc_some _ _ _ _ 0 hres2, hlc]
          · rw [if_neg hfit1] at hres1'
            exact absurd hres1' (by simp)
    · have hr1 := estHeadResult_nil [d] g projectors o hnil
      rw [estAfterHead_lc_none _ _ _ _ hr1]
      exact le_trans hle (estAfterHead_lc_ge [d2] g projectors o)
  by_cases hd1 : (([d] : List GpuInfo).getD 0 defaultGpu).Library = "cpu" ∨
      (estAfterHead [d] g projectors o).layerCount = 0
  · rw [estimateGPULayers_degenerate [d] g projectors o hd1]
    exact Nat.zero_le _
  · push_neg at hd1
    have hd2 : ¬ ((([d2] : List GpuInfo).getD 0 defaultGpu).Library = "cpu" ∨
        (estAfterHead [d2] g projectors o).layerCount = 0) := by
      push_neg
      constructor
      · show ¬ d2.Library = "cpu"
        rw [hL]
        exact hd1.1
      · intro hz0
        exact hd1.2 (Nat.le_zero.mp (hz0 ▸ hlcF))
    rw [estimateGPULayers_normal [d] g projectors o (by push_neg; exact hd1),
      estimateGPULayers_normal [d2] g projectors o hd2]
    exact hlcF

/-- C4 witness: the amended single-device monotonicity at a concrete pair. -/
theorem c4_witness :
    (EstimateGPULayers [wgpu] wg [] woAuto).Layers ≤
      (EstimateGPULayers [⟨"cuda", 50, 0⟩] wg [] woAuto).Layers :=
  c4_theorem wgpu ⟨"cuda", 50, 0⟩ wg [] woAuto (by decide) (by decide)
    (by decide) (by decide)
